import Mathlib

/-!
Shallow embedding of the poker engine (`src/src/server.js`, game-engine half:
deck, hand evaluator, `PokerGame` state machine) together with theorems
settling the frozen claims about it.

JS numbers are modelled as `Int` (all arithmetic in the engine is integral),
JS arrays as `List`, the `actedThisRound` `Set` as a duplicate-free `List Nat`
queried through `contains`.  `Math.random()`-driven code (`shuffle`) takes an
explicit list of random draws.  `Array.prototype.pop()` on a JS array removes
the last element; it is modelled by `popC` below, which uses a default card on
the empty list (the engine never pops an empty deck on the paths covered by
the theorems).
-/

-- ─── DECK ───────────────────────────────────────────────────────────────────

inductive Rank where
  | r2 | r3 | r4 | r5 | r6 | r7 | r8 | r9 | r10 | rJ | rQ | rK | rA
deriving DecidableEq, Repr

inductive Suit where
  | spade | heart | diamond | club
deriving DecidableEq, Repr

structure Card where
  r : Rank
  s : Suit
deriving DecidableEq, Repr

def RANKS : List Rank :=
  [.r2, .r3, .r4, .r5, .r6, .r7, .r8, .r9, .r10, .rJ, .rQ, .rK, .rA]

def SUITS : List Suit := [.spade, .heart, .diamond, .club]

/-- `RANK_VAL[r] = i + 2` where `i` is the index of `r` in `RANKS`. -/
def RANK_VAL : Rank → Nat
  | .r2 => 2 | .r3 => 3 | .r4 => 4 | .r5 => 5 | .r6 => 6 | .r7 => 7
  | .r8 => 8 | .r9 => 9 | .r10 => 10 | .rJ => 11 | .rQ => 12 | .rK => 13
  | .rA => 14

def rankStr : Rank → String
  | .r2 => "2" | .r3 => "3" | .r4 => "4" | .r5 => "5" | .r6 => "6"
  | .r7 => "7" | .r8 => "8" | .r9 => "9" | .r10 => "10" | .rJ => "J"
  | .rQ => "Q" | .rK => "K" | .rA => "A"

def suitStr : Suit → String
  | .spade => "S" | .heart => "H" | .diamond => "D" | .club => "C"

def dCard : Card := ⟨.r2, .spade⟩

/-- The 52 cards in construction order (`for s of SUITS, for r of RANKS`). -/
def fullDeck : List Card := SUITS.flatMap fun s => RANKS.map fun r => ⟨r, s⟩

/-- One Fisher–Yates swap `[a[i], a[j]] = [a[j], a[i]]`. -/
def swapL (a : List Card) (i j : Nat) : List Card :=
  (a.set i (a.getD j dCard)).set j (a.getD i dCard)

/-- The Fisher–Yates loop of `shuffle`, with the index `i` counting down and
`rand` supplying one draw per iteration (`j = r % (i+1)` models
`Math.floor(Math.random()*(i+1))`, which lies in `[0, i]`). -/
def shuffleGo : List Card → Nat → List Nat → List Card
  | a, 0, _ => a
  | a, _ + 1, [] => a
  | a, i + 1, r :: rs => shuffleGo (swapL a (i + 1) (r % (i + 2))) i rs

def shuffle (arr : List Card) (rand : List Nat) : List Card :=
  shuffleGo arr (arr.length - 1) rand

def newDeck (rand : List Nat) : List Card := shuffle fullDeck rand

-- ─── HAND EVALUATOR ─────────────────────────────────────────────────────────

structure HandResult where
  rank : Nat
  name : String
  score : Nat
deriving DecidableEq, Repr

/-- `sorted.every((v,i) => i === 0 || v === sorted[i-1]+1)`. -/
def consecChain : List Nat → Bool
  | [] => true
  | [_] => true
  | a :: b :: t => (b == a + 1) && consecChain (b :: t)

/-- `evalFive` from the source.  `tieVals.getD k 0` models `tieVals[k] || 0`
(index 0 is always present on 5-card input). -/
def evalFive (cards : List Card) : HandResult :=
  let vals := (cards.map fun c => RANK_VAL c.r).insertionSort (· ≥ ·)
  let suits := cards.map fun c => c.s
  let flush := suits.all fun s => s == suits.getD 0 dCard.s
  let sorted := vals.insertionSort (· ≤ ·)
  let isWheel := sorted == [2, 3, 4, 5, 14]
  let straight := isWheel || consecChain sorted
  let freq := ((vals.dedup).map fun v => vals.count v).insertionSort (· ≥ ·)
  let pairs := (freq.filter fun f => f == 2).length
  let rn : Nat × String :=
    if flush && straight then
      (8, if vals.getD 0 0 == 14 && !isWheel then "Royal Flush" else "Straight Flush")
    else if freq.getD 0 0 == 4 then (7, "Four of a Kind")
    else if freq.getD 0 0 == 3 && freq.getD 1 0 == 2 then (6, "Full House")
    else if flush then (5, "Flush")
    else if straight then (4, "Straight")
    else if freq.getD 0 0 == 3 then (3, "Three of a Kind")
    else if pairs == 2 then (2, "Two Pair")
    else if pairs == 1 then (1, "One Pair")
    else (0, "High Card")
  let tieVals := if isWheel then [5, 4, 3, 2, 1] else vals
  let t := fun (k : Nat) => tieVals.getD k 0
  { rank := rn.1, name := rn.2,
    score := rn.1 * 10000000000 + t 0 * 10000000 + t 1 * 100000 +
      t 2 * 1000 + t 3 * 10 + t 4 }

/-- The 5-card sublist of `cards` obtained by dropping positions `i` and `j`
(`cards.filter((_, idx) => idx !== i && idx !== j)`). -/
def fiveOf (cards : List Card) (i j : Nat) : List Card :=
  ((cards.enum.filter fun p => p.1 ≠ i ∧ p.1 ≠ j).map fun p => p.2)

/-- The index pairs `(i, j)`, `i < j < n`, in the order the double loop of
`bestOf7` visits them. -/
def pairsUpTo (n : Nat) : List (Nat × Nat) :=
  (List.range n).flatMap fun i => ((List.range n).filter fun j => i < j).map fun j => (i, j)

/-- One step of `bestOf7`'s accumulation: skip if the sublist is not 5 cards
(the `continue`), otherwise keep the strictly better result. -/
def bestStep (cards : List Card) (best : Option HandResult) (ij : Nat × Nat) :
    Option HandResult :=
  let five := fiveOf cards ij.1 ij.2
  if five.length ≠ 5 then best
  else
    let h := evalFive five
    match best with
    | none => some h
    | some b => if b.score < h.score then some h else some b

def bestOf7 (cards : List Card) : HandResult :=
  match (pairsUpTo cards.length).foldl (bestStep cards) none with
  | some b => b
  | none => evalFive (cards.take 5)

-- scratch sanity checks (spec fixtures)
example :
    (evalFive [⟨.r2, .spade⟩, ⟨.r3, .spade⟩, ⟨.r4, .spade⟩, ⟨.r5, .spade⟩, ⟨.r6, .spade⟩]).name
      = "Straight Flush" := by decide
example :
    (evalFive [⟨.rA, .spade⟩, ⟨.rK, .spade⟩, ⟨.rQ, .spade⟩, ⟨.rJ, .spade⟩, ⟨.r10, .spade⟩]).name
      = "Royal Flush" := by decide
example :
    (evalFive [⟨.rA, .spade⟩, ⟨.r2, .heart⟩, ⟨.r3, .diamond⟩, ⟨.r4, .club⟩, ⟨.r5, .spade⟩]).rank
      = 4 := by decide
example : fullDeck.length = 52 := by decide
example : fullDeck.Nodup := by decide

-- ─── GAME ENGINE: STATE ─────────────────────────────────────────────────────

structure Player where
  id : Nat
  name : String
  chips : Int
  hand : List Card
  bet : Int
  folded : Bool
  allIn : Bool
  sitOut : Bool
  connected : Bool
  buyIns : Nat
  emoji : String
  seatIndex : Nat
deriving DecidableEq, Repr

def dPlayer : Player :=
  { id := 0, name := "", chips := 0, hand := [], bet := 0, folded := false,
    allIn := false, sitOut := false, connected := false, buyIns := 1,
    emoji := "", seatIndex := 0 }

inductive Phase where
  | waiting | preflop | flop | turn | river | showdown
deriving DecidableEq, Repr

structure GameState where
  players : List Player
  community : List Card
  pot : Int
  deck : List Card
  phase : Phase
  dealerIndex : Int
  currentIndex : Int
  callAmount : Int
  minRaise : Int
  actedThisRound : List Nat
  handNumber : Nat
  SMALL_BLIND : Int
  BIG_BLIND : Int
  defaultStack : Int
  log : List String
deriving DecidableEq, Repr

/-- The eight error kinds of the spec's taxonomy, one per engine error
message. -/
inductive ErrKind where
  | NotYourTurn | MustCallOrFold | RaiseTooLow | InsufficientChips
  | UnknownAction | NotEnoughPlayers | TableFull | AlreadySeated
deriving DecidableEq, Repr

structure Winner where
  id : Nat
  name : String
  handName : Option String
  amount : Int
deriving DecidableEq, Repr

inductive Advance where
  | next_turn (currentPlayer : Nat)
  | new_street (phase : Phase) (currentPlayer : Option Nat)
  | hand_over (winners : List Winner)
  | showdown (winners : List Winner)
deriving DecidableEq, Repr

-- action-name strings, as the engine switches on them
def actFold : String := "fold"
def actCheck : String := "check"
def actCall : String := "call"
def actRaise : String := "raise"
def actAllin : String := "allin"

/-- `addLog`: unshift the message, evict the oldest entry past 50. -/
def addLogG (g : GameState) (msg : String) : GameState :=
  let l := msg :: g.log
  { g with log := if 50 < l.length then l.dropLast else l }

/-- `Set.add` on the acted set. -/
def setAdd (l : List Nat) (x : Nat) : List Nat :=
  if l.contains x then l else l ++ [x]

/-- `deck.pop()`: removes and returns the last element (default card on the
empty list, which the covered paths never hit). -/
def popC (d : List Card) : Card × List Card := (d.getLastD dCard, d.dropLast)

def activePlayers (g : GameState) : List Player :=
  g.players.filter fun p => 0 < p.chips && p.connected && !p.sitOut

def inHandB (p : Player) : Bool := !p.folded && p.hand.length == 2

def inHandPlayers (g : GameState) : List Player := g.players.filter inHandB

-- ─── GAME ENGINE: SEAT LIFECYCLE ────────────────────────────────────────────

/-- `addPlayer(id, name, startingStack, emoji)`.  `startingStack = 0` models a
falsy (absent) argument; `startingStack || defaultStack || 1500`. -/
def addPlayer (g : GameState) (id : Nat) (name : String) (startingStack : Int)
    (emoji : String) : Except ErrKind Nat × GameState :=
  match g.players.find? fun p => p.id == id with
  | some existing =>
    if !existing.connected then
      let i := g.players.findIdx fun p => p.id == id
      let g1 := addLogG { g with players := g.players.set i { existing with connected := true } }
        (existing.name ++ (" reconnected."))
      (.ok existing.seatIndex, g1)
    else (.error .AlreadySeated, g)
  | none =>
    if 9 ≤ g.players.length then (.error .TableFull, g)
    else
      let stack := if startingStack == 0 then
        (if g.defaultStack == 0 then 1500 else g.defaultStack) else startingStack
      let player : Player :=
        { id := id, name := name, chips := stack, hand := [], bet := 0,
          folded := false, allIn := false, sitOut := false, connected := true,
          buyIns := 1, emoji := if emoji == "" then "M" else emoji,
          seatIndex := g.players.length }
      (.ok player.seatIndex,
        addLogG { g with players := g.players ++ [player] } (name ++ (" joined the table.")))

-- ─── GAME ENGINE: TURN ORDER ────────────────────────────────────────────────

/-- The `while` loop of `nextActiveIndex`: advance past folded/all-in seats,
at most `fuel` steps. -/
def nextActiveIndexGo (ps : List Player) : Nat → Nat → Nat
  | i, 0 => i
  | i, fuel + 1 =>
    match ps.get? i with
    | some p => if p.folded || p.allIn then nextActiveIndexGo ps ((i + 1) % ps.length) fuel else i
    | none => i

/-- `nextActiveIndex(from, 1)` (every call site uses step 1).
`((from + 1) % n + n) % n` on JS numbers is `Int.emod` for `n > 0`. -/
def nextActiveIndex (ps : List Player) (i0 : Int) : Nat :=
  if ps.length = 0 then 0
  else nextActiveIndexGo ps (((i0 + 1).emod ps.length).toNat) ps.length

/-- The seat condition that makes `findNextToAct` stop. -/
def toActB (acted : List Nat) (callAmount : Int) (p : Player) : Bool :=
  !p.folded && !p.allIn && (!(acted.contains p.id) || p.bet < callAmount)

/-- The `for (count …)` loop of `findNextToAct`. -/
def fntaGo (ps : List Player) (acted : List Nat) (callAmount : Int) : Nat → Nat → Int
  | _, 0 => -1
  | i, fuel + 1 =>
    match ps.get? i with
    | some p =>
      if toActB acted callAmount p then (i : Int)
      else fntaGo ps acted callAmount ((i + 1) % ps.length) fuel
    | none => -1

def findNextToAct (g : GameState) : Int :=
  let n := g.players.length
  if n = 0 then -1
  else fntaGo g.players g.actedThisRound g.callAmount
    (((g.currentIndex + 1).emod n).toNat) n

-- ─── GAME ENGINE: HAND SETUP ────────────────────────────────────────────────

/-- `postBlind(idx, amount)`: cap at the poster's chips, move into bet and
pot, flag all-in on an exhausted stack.  Returns the updated seats and pot. -/
def postBlindF (ps : List Player) (idx : Nat) (amount : Int) (pot : Int) :
    List Player × Int :=
  match ps.get? idx with
  | none => (ps, pot)
  | some p =>
    let actual := min amount p.chips
    let p1 := { p with chips := p.chips - actual, bet := p.bet + actual }
    let p2 := if p1.chips == (0 : Int) then { p1 with allIn := true } else p1
    (ps.set idx p2, pot + actual)

/-- The per-player dealing loop: each non-folded seat receives
`[deck.pop(), deck.pop()]`. -/
def dealHands : List Player → List Card → List Player × List Card
  | [], d => ([], d)
  | p :: ps, d =>
    if p.folded then
      let r := dealHands ps d
      (p :: r.1, r.2)
    else
      let c1 := (popC d).1
      let d1 := (popC d).2
      let c2 := (popC d1).1
      let d2 := (popC d1).2
      let r := dealHands ps d2
      ({ p with hand := [c1, c2] } :: r.1, r.2)

/-- A truthy settings value overrides the stored blind (`if (settings.x)`). -/
def applySetting (cur : Int) : Option Int → Int
  | none => cur
  | some v => if v == 0 then cur else v

/-- The per-player reset loop of `startHand`: clear hand and bet, mark the
ineligible (broke, disconnected or sitting out) as folded for this hand. -/
def resetForHand (p : Player) : Player :=
  { p with
    hand := []
    bet := 0
    folded := decide (p.chips ≤ 0) || !p.connected || p.sitOut
    allIn := false }

/-- The success branch of `startHand`. -/
def startHandOk (g : GameState) (osb obb : Option Int) (rand : List Nat) : GameState :=
    let sb := applySetting g.SMALL_BLIND osb
    let bb := applySetting g.BIG_BLIND obb
    let deck0 := newDeck rand
    let ps1 := g.players.map resetForHand
    let dIdx := nextActiveIndex ps1 g.dealerIndex
    let dealt := dealHands ps1 deck0
    let ps2 := dealt.1
    let sbIdx := nextActiveIndex ps2 dIdx
    let bbIdx := nextActiveIndex ps2 sbIdx
    let postSB := postBlindF ps2 sbIdx sb 0
    let postBB := postBlindF postSB.1 bbIdx bb postSB.2
    let ps4 := postBB.1
    let cIdx := nextActiveIndex ps4 (bbIdx : Int)
    let g1 : GameState :=
      { g with
        players := ps4
        community := []
        pot := postBB.2
        deck := dealt.2
        phase := .preflop
        dealerIndex := (dIdx : Int)
        currentIndex := (cIdx : Int)
        callAmount := bb
        minRaise := bb
        actedThisRound := []
        handNumber := g.handNumber + 1
        SMALL_BLIND := sb
        BIG_BLIND := bb }
    let g2 := addLogG g1 (("--- Hand #") ++ toString g1.handNumber ++ (" --- Dealer: ")
      ++ (ps4.getD dIdx dPlayer).name)
    let g3 := addLogG g2 ((ps4.getD sbIdx dPlayer).name ++ (" posts $") ++ toString sb ++ (" (SB)"))
    let g4 := addLogG g3 ((ps4.getD bbIdx dPlayer).name ++ (" posts $") ++ toString bb ++ (" (BB)"))
    g4

/-- `startHand(settings)`.  `rand` feeds the deck shuffle. -/
def startHand (g : GameState) (osb obb : Option Int) (rand : List Nat) :
    Except ErrKind Unit × GameState :=
  if (activePlayers g).length < 2 then (.error .NotEnoughPlayers, g)
  else (.ok (), startHandOk g osb obb rand)

-- ─── GAME ENGINE: STREETS, SHOWDOWN ─────────────────────────────────────────

def showdownG (g : GameState) : Advance × GameState :=
  let g1 := addLogG { g with phase := .showdown } ("--- SHOWDOWN ---")
  let stillIn := inHandPlayers g1
  let results := stillIn.map fun p => (p, bestOf7 (p.hand ++ g1.community))
  let g2 := results.foldl (fun acc pr =>
    addLogG acc (pr.1.name ++ (": ") ++
      String.intercalate (" ") (pr.1.hand.map fun c => rankStr c.r ++ suitStr c.s) ++
      (" - ") ++ pr.2.name)) g1
  let bestScore := results.foldl
    (fun acc pr => if (pr.2.score : Int) > acc then (pr.2.score : Int) else acc) (-1)
  let winners := results.filter fun pr => (pr.2.score : Int) == bestScore
  let share : Int := if winners.length == 0 then 0 else Int.fdiv g2.pot winners.length
  let ps' := g2.players.map fun q =>
    if inHandB q && ((bestOf7 (q.hand ++ g2.community)).score : Int) == bestScore then
      { q with chips := q.chips + share } else q
  let g3 := winners.foldl (fun acc pr =>
    addLogG acc (pr.1.name ++ (" wins $") ++ toString share ++ ("!"))) { g2 with players := ps' }
  let winnerInfo := winners.map fun pr =>
    ({ id := pr.1.id, name := pr.1.name, handName := some pr.2.name, amount := share } : Winner)
  (.showdown winnerInfo, { g3 with pot := 0, phase := .waiting })

def nextStreet (g : GameState) : Advance × GameState :=
  let g1 : GameState :=
    { g with
      players := g.players.map fun p => { p with bet := 0 }
      callAmount := 0
      minRaise := g.BIG_BLIND
      actedThisRound := [] }
  if g1.phase == .river then showdownG g1
  else
    let g2 :=
      if g1.phase == .preflop then
        let (c1, d1) := popC g1.deck
        let (c2, d2) := popC d1
        let (c3, d3) := popC d2
        addLogG { g1 with
          community := g1.community ++ [c1, c2, c3]
          deck := d3
          phase := .flop } ("--- FLOP ---")
      else if g1.phase == .flop then
        let (c1, d1) := popC g1.deck
        addLogG { g1 with
          community := g1.community ++ [c1]
          deck := d1
          phase := .turn } ("--- TURN ---")
      else if g1.phase == .turn then
        let (c1, d1) := popC g1.deck
        addLogG { g1 with
          community := g1.community ++ [c1]
          deck := d1
          phase := .river } ("--- RIVER ---")
      else g1
    let ci := nextActiveIndex g2.players g2.dealerIndex
    let g3 := { g2 with currentIndex := (ci : Int) }
    (.new_street g3.phase ((g3.players.get? ci).map fun p => p.id), g3)

def advanceTurn (g : GameState) : Advance × GameState :=
  let stillIn := inHandPlayers g
  if stillIn.length == 1 then
    let w := stillIn.getD 0 dPlayer
    let i := g.players.findIdx inHandB
    let g1 := addLogG { g with players := g.players.set i { w with chips := w.chips + g.pot } }
      (w.name ++ (" wins $") ++ toString g.pot ++ (" (everyone folded)!"))
    let g2 := { g1 with pot := 0, phase := .waiting }
    (.hand_over [{ id := w.id, name := w.name, handName := none, amount := g2.pot }], g2)
  else
    let next := findNextToAct g
    if next == -1 then nextStreet g
    else (.next_turn (g.players.getD next.toNat dPlayer).id, { g with currentIndex := next })

-- ─── GAME ENGINE: ACTIONS ───────────────────────────────────────────────────

/-- `case 'fold'`. -/
def doFold (g : GameState) (idx : Nat) (p : Player) : GameState :=
  addLogG { g with players := g.players.set idx { p with folded := true } }
    (p.name ++ (" folds."))

/-- `case 'call'`. -/
def doCall (g : GameState) (idx : Nat) (p : Player) (toCall : Int) : GameState :=
  let amt := min toCall p.chips
  let p1 := { p with chips := p.chips - amt, bet := p.bet + amt }
  let p2 := if p1.chips == (0 : Int) then { p1 with allIn := true } else p1
  addLogG { g with players := g.players.set idx p2, pot := g.pot + amt }
    (p.name ++ (" calls $") ++ toString amt ++ ("."))

/-- `case 'raise'` past its two validations.  `minRaise` is computed from the
already-updated `callAmount` (so it becomes `amount - amount = 0`). -/
def doRaise (g : GameState) (idx : Nat) (p : Player) (amount : Int) : GameState :=
  let extra := amount - p.bet
  let p1 := { p with chips := p.chips - extra, bet := amount }
  let p2 := if p1.chips == (0 : Int) then { p1 with allIn := true } else p1
  let g1 := { g with
    players := g.players.set idx p2
    pot := g.pot + extra
    callAmount := amount }
  let g2 := { g1 with minRaise := amount - g1.callAmount, actedThisRound := [] }
  addLogG g2 (p.name ++ (" raises to $") ++ toString amount ++ ("."))

/-- `case 'allin'`. -/
def doAllin (g : GameState) (idx : Nat) (p : Player) : GameState :=
  let amt := p.chips
  let p1 := { p with bet := p.bet + amt, chips := 0, allIn := true }
  let g1 := { g with players := g.players.set idx p1, pot := g.pot + amt }
  let g2 := if g1.callAmount < p1.bet then
    { g1 with callAmount := p1.bet, actedThisRound := [] } else g1
  addLogG g2 (p.name ++ (" goes ALL IN for $") ++ toString p1.bet ++ ("!"))

/-- The `switch` of `applyAction` plus the post-switch `actedThisRound.add`;
returns the state handed to `advanceTurn`, or the error (every error return
in the source precedes the first mutation). -/
def actionSwitch (g : GameState) (playerId : Nat) (action : String) (amount : Int) :
    Except ErrKind GameState :=
  match (if 0 ≤ g.currentIndex then g.players.get? g.currentIndex.toNat else none) with
  | none => .error .NotYourTurn
  | some p =>
    if !(p.id == playerId) then .error .NotYourTurn
    else
      let idx := g.currentIndex.toNat
      let toCall := g.callAmount - p.bet
      let core : Except ErrKind GameState :=
        if action == actFold then .ok (doFold g idx p)
        else if action == actCheck then
          if 0 < toCall then .error .MustCallOrFold
          else .ok (addLogG g (p.name ++ (" checks.")))
        else if action == actCall then .ok (doCall g idx p toCall)
        else if action == actRaise then
          if amount ≤ g.callAmount then .error .RaiseTooLow
          else if p.chips + p.bet < amount then .error .InsufficientChips
          else .ok (doRaise g idx p amount)
        else if action == actAllin then .ok (doAllin g idx p)
        else .error .UnknownAction
      match core with
      | .error e => .error e
      | .ok gm => .ok { gm with actedThisRound := setAdd gm.actedThisRound playerId }

def applyAction (g : GameState) (playerId : Nat) (action : String) (amount : Int) :
    Except ErrKind Advance × GameState :=
  match actionSwitch g playerId action amount with
  | .error e => (.error e, g)
  | .ok m => let r := advanceTurn m; (.ok r.1, r.2)

-- ─── GAME ENGINE: REDACTED VIEW ─────────────────────────────────────────────

structure PlayerView where
  id : Nat
  name : String
  chips : Int
  bet : Int
  folded : Bool
  allIn : Bool
  connected : Bool
  seatIndex : Nat
  cardCount : Nat
  buyIns : Nat
  emoji : String
  hand : Option (List Card)
deriving DecidableEq, Repr

structure StateView where
  phase : Phase
  pot : Int
  community : List Card
  dealerIndex : Int
  currentPlayerId : Option Nat
  callAmount : Int
  minRaise : Int
  handNumber : Nat
  players : List PlayerView
  log : List String
deriving DecidableEq, Repr

def viewOfPlayer (phase : Phase) (viewer : Option Nat) (p : Player) : PlayerView :=
  { id := p.id, name := p.name, chips := p.chips, bet := p.bet, folded := p.folded,
    allIn := p.allIn, connected := p.connected, seatIndex := p.seatIndex,
    cardCount := p.hand.length,
    buyIns := if p.buyIns == 0 then 1 else p.buyIns,
    emoji := if p.emoji == "" then "M" else p.emoji,
    hand := if viewer == some p.id || phase == .showdown then some p.hand else none }

def getStateFor (g : GameState) (viewer : Option Nat) : StateView :=
  { phase := g.phase, pot := g.pot, community := g.community,
    dealerIndex := g.dealerIndex,
    currentPlayerId :=
      (if 0 ≤ g.currentIndex then g.players.get? g.currentIndex.toNat else none).map fun p => p.id,
    callAmount := g.callAmount, minRaise := g.minRaise, handNumber := g.handNumber,
    players := g.players.map (viewOfPlayer g.phase viewer),
    log := g.log.take 20 }

deriving instance DecidableEq for Except

/-- Seat `idx` is the first seat cyclically at or after `i0 + 1` whose player
satisfies `good`; all strictly earlier seats of the walk fail `good`. -/
def firstFromB (good : Player → Bool) (ps : List Player) (i0 : Int) (idx : Nat) : Prop :=
  ∃ k, k < ps.length ∧
    idx = ((((i0 + 1).emod ps.length).toNat + k) % ps.length) ∧
    (∃ p, ps.get? idx = some p ∧ good p = true) ∧
    (∀ t, t < k → ∀ p,
      ps.get? ((((i0 + 1).emod ps.length).toNat + t) % ps.length) = some p → good p = false)

-- ─── QUANTITIES USED BY THE THEOREMS ────────────────────────────────────────

def chipTotal (ps : List Player) : Int := (ps.map fun p => p.chips).sum

def betTotal (ps : List Player) : Int := (ps.map fun p => p.bet).sum

/-- The quantity named by the spec: `sum(chips) + sum(bet) + pot`. -/
def specQty (g : GameState) : Int := chipTotal g.players + betTotal g.players + g.pot

/-- The quantity the engine actually conserves: `sum(chips) + pot` (street
bets are added to the pot at the moment they are posted). -/
def potQty (g : GameState) : Int := chipTotal g.players + g.pot

/-- A showdown participant's evaluated best-of-seven score. -/
def sdScore (g : GameState) (p : Player) : Nat := (bestOf7 (p.hand ++ g.community)).score

/-- The running-maximum fold of `showdown` (initial value `-1`). -/
def sdBest (g : GameState) : Int :=
  (inHandPlayers g).foldl
    (fun acc p => if ((sdScore g p : Int)) > acc then (sdScore g p : Int) else acc) (-1)

/-- Eligibility to be dealt in (`chips > 0 && connected && !sitOut`). -/
def eligB (p : Player) : Bool := decide (0 < p.chips) && p.connected && !p.sitOut

/-- Transcription of claim C5's success postcondition (the spec's wording),
compared against the `startHand` translated from the code. -/
def startHandSpecPost (g g' : GameState) (osb obb : Option Int) (rand : List Nat) : Prop :=
  g'.handNumber = g.handNumber + 1 ∧
  g'.phase = .preflop ∧
  g'.community = [] ∧
  g'.callAmount = applySetting g.BIG_BLIND obb ∧
  g'.actedThisRound = [] ∧
  g'.players.length = g.players.length ∧
  (newDeck rand).Perm fullDeck ∧
  g'.deck = (newDeck rand).take ((newDeck rand).length - 2 * g.players.countP eligB) ∧
  ∃ (dIdx sbIdx bbIdx : Nat) (sbP bbP : Player),
    g'.dealerIndex = (dIdx : Int) ∧
    firstFromB eligB g.players g.dealerIndex dIdx ∧
    firstFromB eligB g.players (dIdx : Int) sbIdx ∧
    firstFromB eligB g.players (sbIdx : Int) bbIdx ∧
    sbIdx ≠ bbIdx ∧
    g.players.get? sbIdx = some sbP ∧
    g.players.get? bbIdx = some bbP ∧
    g'.pot = min (applySetting g.SMALL_BLIND osb) sbP.chips +
      min (applySetting g.BIG_BLIND obb) bbP.chips ∧
    ((∃ j p, g'.players.get? j = some p ∧ (!(p.folded || p.allIn)) = true) →
      ∃ cIdx : Nat, g'.currentIndex = (cIdx : Int) ∧
        firstFromB (fun p => !(p.folded || p.allIn)) g'.players (bbIdx : Int) cIdx) ∧
    (∀ i p, g.players.get? i = some p → ∃ p', g'.players.get? i = some p' ∧
      p'.id = p.id ∧
      p'.folded = !eligB p ∧
      (eligB p = false → p'.hand = [] ∧ p'.bet = 0 ∧ p'.chips = p.chips ∧ p'.allIn = false) ∧
      (eligB p = true → ∃ c1 c2, p'.hand = [c1, c2] ∧ c1 ≠ c2 ∧
        c1 ∈ newDeck rand ∧ c2 ∈ newDeck rand ∧ c1 ∉ g'.deck ∧ c2 ∉ g'.deck) ∧
      (i ≠ sbIdx → i ≠ bbIdx → p'.bet = 0 ∧ p'.chips = p.chips ∧ p'.allIn = false) ∧
      (i = sbIdx → p'.bet = min (applySetting g.SMALL_BLIND osb) p.chips ∧
        p'.chips = p.chips - min (applySetting g.SMALL_BLIND osb) p.chips ∧
        (p'.allIn = true ↔ p'.chips = 0)) ∧
      (i = bbIdx → p'.bet = min (applySetting g.BIG_BLIND obb) p.chips ∧
        p'.chips = p.chips - min (applySetting g.BIG_BLIND obb) p.chips ∧
        (p'.allIn = true ↔ p'.chips = 0)))

-- ─── CONCRETE STATES FOR COUNTEREXAMPLES AND WITNESSES ──────────────────────

def mkP (i : Nat) (chips : Int) (hand : List Card) (bet : Int)
    (folded allIn : Bool) : Player :=
  { id := i, name := ("p") ++ toString i, chips := chips, hand := hand, bet := bet,
    folded := folded, allIn := allIn, sitOut := false, connected := true, buyIns := 1,
    emoji := ("e"), seatIndex := i }

def mkG (ps : List Player) (pot callAmount : Int) (ci : Int) (acted : List Nat)
    (phase : Phase) (deck community : List Card) : GameState :=
  { players := ps, community := community, pot := pot, deck := deck, phase := phase,
    dealerIndex := 0, currentIndex := ci, callAmount := callAmount, minRaise := 0,
    actedThisRound := acted, handNumber := 1, SMALL_BLIND := 25, BIG_BLIND := 50,
    defaultStack := 1500, log := [] }

/-- Two-player preflop state: seat 0 (chips 100, bet 0) faces a call of 10
against seat 1 (chips 90, bet 10, pot 10). -/
def c1State : GameState :=
  mkG
    [mkP 0 100 [⟨.rA, .heart⟩, ⟨.rK, .heart⟩] 0 false false,
     mkP 1 90 [⟨.rQ, .heart⟩, ⟨.rJ, .heart⟩] 10 false false]
    10 10 0 [] .preflop
    [⟨.r2, .club⟩, ⟨.r3, .club⟩, ⟨.r4, .club⟩, ⟨.r5, .club⟩, ⟨.r6, .club⟩] []

/-- Three players at showdown over a pot of 10, with a royal flush on the
board so that all three tie: the floor split pays 3 each and 1 chip vanishes. -/
def c1ShowState : GameState :=
  mkG
    [mkP 0 50 [⟨.r2, .heart⟩, ⟨.r3, .heart⟩] 0 false false,
     mkP 1 60 [⟨.r2, .diamond⟩, ⟨.r3, .diamond⟩] 0 false false,
     mkP 2 70 [⟨.r2, .club⟩, ⟨.r3, .club⟩] 0 false false]
    10 0 0 [] .river
    []
    [⟨.rA, .spade⟩, ⟨.rK, .spade⟩, ⟨.rQ, .spade⟩, ⟨.rJ, .spade⟩, ⟨.r10, .spade⟩]

/-- The winners list `showdownG` reports on `c1ShowState`. -/
def c1ShowWinners : List Winner :=
  match (showdownG c1ShowState).1 with
  | .showdown ws => ws
  | _ => []

-- C3 failing inputs
def pairKingsHand : List Card :=
  [⟨.rK, .spade⟩, ⟨.rK, .heart⟩, ⟨.r5, .diamond⟩, ⟨.r4, .club⟩, ⟨.r3, .spade⟩]

def pairDeucesHand : List Card :=
  [⟨.r2, .spade⟩, ⟨.r2, .heart⟩, ⟨.rA, .diamond⟩, ⟨.rK, .club⟩, ⟨.rQ, .spade⟩]

def twoPairAKKHand : List Card :=
  [⟨.rA, .spade⟩, ⟨.rA, .heart⟩, ⟨.rK, .diamond⟩, ⟨.rK, .club⟩, ⟨.r2, .spade⟩]

def twoPairAQQHand : List Card :=
  [⟨.rA, .diamond⟩, ⟨.rA, .club⟩, ⟨.rK, .spade⟩, ⟨.rQ, .heart⟩, ⟨.rQ, .diamond⟩]

-- C4 witness: seven cards
def w7cards : List Card :=
  [⟨.rA, .spade⟩, ⟨.rK, .spade⟩, ⟨.rQ, .spade⟩, ⟨.rJ, .spade⟩, ⟨.r10, .spade⟩,
   ⟨.r9, .heart⟩, ⟨.r2, .diamond⟩]

/-- Two players in hand, seat 0 to act; a fold leaves one player holding cards. -/
def c6State : GameState :=
  mkG
    [mkP 0 100 [⟨.rA, .heart⟩, ⟨.rK, .heart⟩] 0 false false,
     mkP 1 80 [⟨.rQ, .heart⟩, ⟨.rJ, .heart⟩] 20 false false]
    30 20 0 [1] .preflop
    [⟨.r2, .club⟩, ⟨.r3, .club⟩, ⟨.r4, .club⟩, ⟨.r5, .club⟩, ⟨.r6, .club⟩] []

/-- The mid-state of the fold action on `c6State` (the state `advanceTurn`
receives). -/
def c6Mid : GameState :=
  match actionSwitch c6State 0 actFold 0 with
  | .ok m => m
  | .error _ => c6State

/-- Two players at showdown over a pot of 10: seat 0 holds a pair of aces,
seat 1 a pair of queens; seat 0 wins alone. -/
def c7State : GameState :=
  mkG
    [mkP 0 50 [⟨.rA, .heart⟩, ⟨.rA, .diamond⟩] 0 false false,
     mkP 1 60 [⟨.rQ, .heart⟩, ⟨.rQ, .diamond⟩] 0 false false]
    10 0 0 [] .river
    []
    [⟨.r2, .spade⟩, ⟨.r5, .spade⟩, ⟨.r7, .diamond⟩, ⟨.r9, .club⟩, ⟨.rJ, .heart⟩]

/-- Both seats have acted and both street bets (11) exceed `callAmount` (10):
neither seat is folded or all-in and no bet equals `callAmount`, yet
`findNextToAct` skips both. -/
def c8State : GameState :=
  mkG
    [mkP 0 100 [⟨.rA, .heart⟩, ⟨.rK, .heart⟩] 11 false false,
     mkP 1 90 [⟨.rQ, .heart⟩, ⟨.rJ, .heart⟩] 11 false false]
    22 10 0 [0, 1] .preflop [] []

/-- A state with no players at all (`startHand` must refuse). -/
def c2Empty : GameState := mkG [] 0 0 (-1) [] .waiting [] []

/-- `c1State` with seat 1's hole cards replaced (same length); used to show a
viewer other than seat 1 sees the same redacted view. -/
def c9StateB : GameState :=
  mkG
    [mkP 0 100 [⟨.rA, .heart⟩, ⟨.rK, .heart⟩] 0 false false,
     mkP 1 90 [⟨.r7, .club⟩, ⟨.r8, .club⟩] 10 false false]
    10 10 0 [] .preflop
    [⟨.r2, .club⟩, ⟨.r3, .club⟩, ⟨.r4, .club⟩, ⟨.r5, .club⟩, ⟨.r6, .club⟩] []

/-- Two eligible seated players waiting for a deal (witness for `startHand`). -/
def c5State : GameState :=
  { players :=
      [mkP 0 1500 [] 0 false false, mkP 1 1500 [] 0 false false],
    community := [], pot := 0, deck := [], phase := .waiting, dealerIndex := -1,
    currentIndex := -1, callAmount := 0, minRaise := 50, actedThisRound := [],
    handNumber := 0, SMALL_BLIND := 25, BIG_BLIND := 50, defaultStack := 1500,
    log := [] }

-- ─── SMALL LIST LEMMAS ──────────────────────────────────────────────────────

lemma mapSum_set (f : Player → Int) (ps : List Player) (i : Nat) (p q : Player)
    (h : ps.get? i = some p) :
    ((ps.set i q).map f).sum = (ps.map f).sum - f p + f q := by
  induction ps generalizing i with
  | nil => simp at h
  | cons a t ih =>
    cases i with
    | zero =>
      simp only [List.get?_cons_zero, Option.some.injEq] at h
      subst h
      simp [List.set]
      ring
    | succ n =>
      simp only [List.get?_cons_succ] at h
      simp only [List.set, List.map_cons, List.sum_cons, ih n h]
      ring

lemma mapSum_condAdd (pred : Player → Bool) (a : Int) (ps : List Player) :
    ((ps.map fun q => if pred q then { q with chips := q.chips + a } else q).map
      fun q => q.chips).sum = (ps.map fun q => q.chips).sum + (ps.countP pred) * a := by
  induction ps with
  | nil => simp
  | cons x t ih =>
    simp only [List.map_map] at ih
    cases hx : pred x <;>
      simp [hx, ih, Function.comp] <;> push_cast <;> ring

lemma get_findIdx_of_filter (q : Player → Bool) :
    ∀ (ps : List Player) (w : Player) (t : List Player),
      ps.filter q = w :: t → ps.get? (ps.findIdx q) = some w := by
  intro ps
  induction ps with
  | nil => intro w t h; simp at h
  | cons a l ih =>
    intro w t h
    by_cases hq : q a
    · rw [List.filter_cons_of_pos hq] at h
      obtain ⟨rfl, -⟩ : a = w ∧ l.filter q = t := by
        simpa using h
      simp [List.findIdx_cons, hq]
    · rw [List.filter_cons_of_neg hq] at h
      have hrec := ih w t h
      have heq : q a = false := by simpa using hq
      simp only [List.findIdx_cons, heq, cond_false]
      simpa using hrec

-- ─── C3 ─────────────────────────────────────────────────────────────────────

/-- Claim C3: the claimed total order by grouped tie-break ranks fails on the
code. `evalFive` breaks ties by the five card values sorted descending (not by
rank groups) and weights the last two positions by only 10 and 1, so (i) a
pair of deuces with A-K-Q kickers outscores a pair of kings, and (ii) the
distinct two-pair hands A-A-K-K-2 and A-A-K-Q-Q receive the same score, so
the score does not totally order same-category hands. -/
theorem C3_evalFive_order_code_bug :
    (evalFive pairKingsHand).rank = 1 ∧ (evalFive pairDeucesHand).rank = 1 ∧
    (evalFive pairKingsHand).score < (evalFive pairDeucesHand).score ∧
    twoPairAKKHand ≠ twoPairAQQHand ∧
    (evalFive twoPairAKKHand).rank = 2 ∧ (evalFive twoPairAQQHand).rank = 2 ∧
    (evalFive twoPairAKKHand).score = (evalFive twoPairAQQHand).score := by
  decide

-- ─── C1: COUNTEREXAMPLE ─────────────────────────────────────────────────────

/-- Claim C1, counterexample: a successful `call` (no settlement) raises
`sum(chips) + sum(bet) + pot` from 210 to 220 (the pot is credited at posting
time while the street bet is still outstanding), and the showdown settlement
on a pot of 10 with three tied winners credits only `3 * floor(10/3) = 9`
chips, not the pre-transfer pot. -/
theorem C1_spec_quantity_not_conserved :
    (applyAction c1State 0 actCall 0).1 = .ok (.next_turn 1) ∧
    specQty c1State = 210 ∧
    specQty (applyAction c1State 0 actCall 0).2 = 220 ∧
    c1ShowState.pot = 10 ∧
    (showdownG c1ShowState).2.pot = 0 ∧
    chipTotal (showdownG c1ShowState).2.players = chipTotal c1ShowState.players + 9 := by
  decide

-- ─── C8: COUNTEREXAMPLE ─────────────────────────────────────────────────────

/-- Claim C8, counterexample: both seats are non-folded, non-all-in, have
acted, and have street bets of 11 against `callAmount = 10` (so no bet
"matches" the call amount), yet `findNextToAct` returns -1: the loop skips
any seat that has acted with `bet ≥ callAmount`, not only `bet = callAmount`. -/
theorem C8_findNextToAct_counterexample :
    findNextToAct c8State = -1 ∧
    c8State.players.length = 2 ∧
    (∀ p ∈ c8State.players, p.folded = false ∧ p.allIn = false ∧
      c8State.actedThisRound.contains p.id = true ∧ p.bet ≠ c8State.callAmount) := by
  decide

-- ─── FIELD-PRESERVATION LEMMAS ──────────────────────────────────────────────

lemma players_addLogG (g : GameState) (s : String) : (addLogG g s).players = g.players := rfl

lemma pot_addLogG (g : GameState) (s : String) : (addLogG g s).pot = g.pot := rfl

lemma community_addLogG (g : GameState) (s : String) :
    (addLogG g s).community = g.community := rfl

lemma potQty_addLogG (g : GameState) (s : String) : potQty (addLogG g s) = potQty g := rfl

lemma players_foldl_addLogG {α : Type} (f : α → String) (l : List α) :
    ∀ g : GameState, (l.foldl (fun acc x => addLogG acc (f x)) g).players = g.players := by
  induction l with
  | nil => intro g; rfl
  | cons x t ih => intro g; rw [List.foldl_cons, ih, players_addLogG]

lemma pot_foldl_addLogG {α : Type} (f : α → String) (l : List α) :
    ∀ g : GameState, (l.foldl (fun acc x => addLogG acc (f x)) g).pot = g.pot := by
  induction l with
  | nil => intro g; rfl
  | cons x t ih => intro g; rw [List.foldl_cons, ih, pot_addLogG]

lemma community_foldl_addLogG {α : Type} (f : α → String) (l : List α) :
    ∀ g : GameState, (l.foldl (fun acc x => addLogG acc (f x)) g).community = g.community := by
  induction l with
  | nil => intro g; rfl
  | cons x t ih => intro g; rw [List.foldl_cons, ih, community_addLogG]

lemma chipTotal_mapBetZero (ps : List Player) :
    chipTotal (ps.map fun p => { p with bet := 0 }) = chipTotal ps := by
  unfold chipTotal
  rw [List.map_map]
  rfl

-- ─── CONSERVATION THROUGH THE ACTION CASES ──────────────────────────────────

lemma potQty_doFold (g : GameState) (idx : Nat) (p : Player)
    (hp : g.players.get? idx = some p) : potQty (doFold g idx p) = potQty g := by
  unfold doFold
  rw [potQty_addLogG]
  unfold potQty chipTotal
  simp only
  rw [mapSum_set (fun q => q.chips) g.players idx p _ hp]
  ring

lemma potQty_doCall (g : GameState) (idx : Nat) (p : Player) (toCall : Int)
    (hp : g.players.get? idx = some p) : potQty (doCall g idx p toCall) = potQty g := by
  unfold doCall
  rw [potQty_addLogG]
  unfold potQty chipTotal
  simp only
  rw [mapSum_set (fun q => q.chips) g.players idx p _ hp]
  split <;> simp

lemma potQty_doRaise (g : GameState) (idx : Nat) (p : Player) (amount : Int)
    (hp : g.players.get? idx = some p) : potQty (doRaise g idx p amount) = potQty g := by
  unfold doRaise
  rw [potQty_addLogG]
  unfold potQty chipTotal
  simp only
  rw [mapSum_set (fun q => q.chips) g.players idx p _ hp]
  split <;> simp

lemma potQty_doAllin (g : GameState) (idx : Nat) (p : Player)
    (hp : g.players.get? idx = some p) : potQty (doAllin g idx p) = potQty g := by
  unfold doAllin
  rw [potQty_addLogG]
  split <;>
    · unfold potQty chipTotal
      simp only
      rw [mapSum_set (fun q => q.chips) g.players idx p _ hp]
      simp

lemma potQty_actionSwitch (g : GameState) (pid : Nat) (act : String) (amt : Int)
    (m : GameState) (h : actionSwitch g pid act amt = .ok m) :
    potQty m = potQty g := by
  unfold actionSwitch at h
  cases hE : (if 0 ≤ g.currentIndex then g.players.get? g.currentIndex.toNat else none) with
  | none => rw [hE] at h; exact absurd h (by simp)
  | some p =>
    rw [hE] at h
    have h0 : 0 ≤ g.currentIndex := by
      by_contra hc
      rw [if_neg hc] at hE
      exact Option.noConfusion hE
    have hp : g.players.get? g.currentIndex.toNat = some p := by
      rw [if_pos h0] at hE; exact hE
    by_cases hid : (p.id == pid) = true
    case neg => simp [hid] at h
    case pos =>
      simp only [hid, Bool.not_true, if_neg, Bool.false_eq_true, not_false_eq_true,
        if_false] at h
      by_cases hf : (act == actFold) = true
      · simp only [hf, if_true] at h
        simp only [Except.ok.injEq] at h
        subst h
        exact potQty_doFold g _ p hp
      · simp only [hf, Bool.false_eq_true, if_false] at h
        by_cases hc : (act == actCheck) = true
        · simp only [hc, if_true] at h
          by_cases ht : 0 < g.callAmount - p.bet
          · rw [if_pos ht] at h; exact absurd h (by simp)
          · rw [if_neg ht] at h
            simp only [Except.ok.injEq] at h
            subst h
            rfl
        · simp only [hc, Bool.false_eq_true, if_false] at h
          by_cases hca : (act == actCall) = true
          · simp only [hca, if_true] at h
            simp only [Except.ok.injEq] at h
            subst h
            exact potQty_doCall g _ p _ hp
          · simp only [hca, Bool.false_eq_true, if_false] at h
            by_cases hr : (act == actRaise) = true
            · simp only [hr, if_true] at h
              by_cases hr1 : amt ≤ g.callAmount
              · rw [if_pos hr1] at h; exact absurd h (by simp)
              · rw [if_neg hr1] at h
                by_cases hr2 : p.chips + p.bet < amt
                · rw [if_pos hr2] at h; exact absurd h (by simp)
                · rw [if_neg hr2] at h
                  simp only [Except.ok.injEq] at h
                  subst h
                  exact potQty_doRaise g _ p amt hp
            · simp only [hr, Bool.false_eq_true, if_false] at h
              by_cases ha : (act == actAllin) = true
              · simp only [ha, if_true] at h
                simp only [Except.ok.injEq] at h
                subst h
                exact potQty_doAllin g _ p hp
              · simp only [ha, Bool.false_eq_true, if_false] at h
                exact absurd h (by simp)

lemma showdownG_fst (g : GameState) : ∃ ws, (showdownG g).1 = Advance.showdown ws :=
  ⟨_, rfl⟩

lemma potQty_nextStreet (g : GameState)
    (h : ∀ ws, (nextStreet g).1 ≠ Advance.showdown ws) :
    potQty (nextStreet g).2 = potQty g := by
  have key : ∀ x : GameState, x.players = (g.players.map fun p => { p with bet := 0 }) →
      x.pot = g.pot → potQty x = potQty g := by
    intro x hp hpot
    unfold potQty
    rw [hp, hpot, chipTotal_mapBetZero]
  unfold nextStreet
  by_cases hr : (g.phase == Phase.river) = true
  · exfalso
    obtain ⟨ws, hws⟩ := showdownG_fst
      { g with
        players := g.players.map fun p => { p with bet := 0 }
        callAmount := 0
        minRaise := g.BIG_BLIND
        actedThisRound := [] }
    refine h ws ?_
    unfold nextStreet
    simp only [hr, if_true]
    exact hws
  · simp only [hr, Bool.false_eq_true, if_false]
    by_cases h1 : (g.phase == Phase.preflop) = true
    · simp only [h1, if_true]
      exact key _ rfl rfl
    · simp only [h1, Bool.false_eq_true, if_false]
      by_cases h2 : (g.phase == Phase.flop) = true
      · simp only [h2, if_true]
        exact key _ rfl rfl
      · simp only [h2, Bool.false_eq_true, if_false]
        by_cases h3 : (g.phase == Phase.turn) = true
        · simp only [h3, if_true]
          exact key _ rfl rfl
        · simp only [h3, Bool.false_eq_true, if_false]
          exact key _ rfl rfl

lemma potQty_advanceTurn (m : GameState)
    (h : ∀ ws, (advanceTurn m).1 ≠ Advance.showdown ws) :
    potQty (advanceTurn m).2 = potQty m := by
  unfold advanceTurn
  by_cases h1 : ((inHandPlayers m).length == 1) = true
  · obtain ⟨w, hw⟩ := List.length_eq_one.mp (by simpa using h1)
    have hg := get_findIdx_of_filter inHandB m.players w [] hw
    have key : ∀ x : GameState,
        x.players = m.players.set (m.players.findIdx inHandB)
          { w with chips := w.chips + m.pot } →
        x.pot = 0 → potQty x = potQty m := by
      intro x hp hpot
      unfold potQty chipTotal
      rw [hp, hpot, mapSum_set (fun q => q.chips) m.players (m.players.findIdx inHandB) w _ hg]
      simp
      ring
    simp only [h1, if_true]
    apply key
    · simp only [hw, List.getD_cons_zero, players_addLogG]
    · rfl
  · by_cases h2 : (findNextToAct m == -1) = true
    · have hred : advanceTurn m = nextStreet m := by
        unfold advanceTurn
        simp only [h1, Bool.false_eq_true, if_false, h2, if_true]
      rw [hred] at h
      simp only [h1, Bool.false_eq_true, if_false, h2, if_true]
      exact potQty_nextStreet m h
    · simp only [h1, Bool.false_eq_true, if_false, h2, Bool.false_eq_true, if_false]
      rfl
lemma inHandPlayers_unfold (g : GameState) : inHandPlayers g = g.players.filter inHandB := rfl

lemma showdownG_sums (g : GameState) (ws : List Winner) (g' : GameState)
    (h : showdownG g = (.showdown ws, g')) :
    g'.pot = 0 ∧
    chipTotal g'.players = chipTotal g.players +
      ws.length * (if ws.length = 0 then 0 else Int.fdiv g.pot ws.length) := by
  unfold showdownG at h
  injection h with h1 h2
  injection h1 with h1
  subst h1
  subst h2
  refine ⟨rfl, ?_⟩
  simp only [players_foldl_addLogG, pot_foldl_addLogG, community_foldl_addLogG,
    players_addLogG, pot_addLogG, community_addLogG, List.length_map,
    inHandPlayers_unfold]
  generalize hB : List.foldl (fun acc pr => if ((pr.2.score : Int)) > acc then (pr.2.score : Int) else acc) (-1)
      (List.map (fun p => (p, bestOf7 (p.hand ++ g.community))) (g.players.filter inHandB)) = B
  generalize hK : (List.filter (fun pr => ((pr.2.score : Int)) == B)
      (List.map (fun p => (p, bestOf7 (p.hand ++ g.community))) (g.players.filter inHandB))).length = K
  unfold chipTotal
  rw [mapSum_condAdd]
  have hcount : List.countP (fun q => inHandB q && (((bestOf7 (q.hand ++ g.community)).score : Int) == B)) g.players = K := by
    rw [← hK, ← List.countP_eq_length_filter, List.countP_map, List.countP_filter]
    refine List.countP_congr ?_
    intro a _
    simp only [Function.comp_apply, Bool.and_comm]
  rw [hcount]
  simp only [beq_iff_eq]

-- ─── C1: AMENDED THEOREM ────────────────────────────────────────────────────

/-- Claim C1 (amended): the conserved quantity is `sum(chips) + pot`, not
`sum(chips) + sum(bet) + pot` (bets are added to the pot at posting time).
Every successful action conserves `sum(chips) + pot`, including across the
single-remaining-player payout and street advancement; the showdown
settlement zeroes the pot and credits the winners `k * floor(pot / k)` in
total (`k` = number of tied winners), which equals the pre-transfer pot only
when `k` divides it. -/
theorem C1_chip_conservation_amended :
    (∀ (g : GameState) (pid : Nat) (act : String) (amt : Int) (adv : Advance) (g' : GameState),
        applyAction g pid act amt = (.ok adv, g') →
        (∀ ws, adv ≠ Advance.showdown ws) →
        potQty g' = potQty g)
    ∧ (∀ (g : GameState) (ws : List Winner) (g' : GameState),
        showdownG g = (.showdown ws, g') →
        g'.pot = 0 ∧ chipTotal g'.players = chipTotal g.players +
          ws.length * (if ws.length = 0 then 0 else Int.fdiv g.pot ws.length)) := by
  constructor
  · intro g pid act amt adv g' h hns
    unfold applyAction at h
    cases hs : actionSwitch g pid act amt with
    | error e => rw [hs] at h; simp at h
    | ok m =>
      rw [hs] at h
      simp only [Prod.mk.injEq, Except.ok.injEq] at h
      obtain ⟨h1, h2⟩ := h
      subst h1
      subst h2
      exact (potQty_advanceTurn m hns).trans (potQty_actionSwitch g pid act amt m hs)
  · intro g ws g' h
    exact showdownG_sums g ws g' h

/-- Witness for the amended C1 at concrete inputs. -/
theorem C1_chip_conservation_amended_witness :
    applyAction c1State 0 actCall 0 = (.ok (.next_turn 1), (applyAction c1State 0 actCall 0).2)
    ∧ potQty (applyAction c1State 0 actCall 0).2 = potQty c1State
    ∧ showdownG c1ShowState = (.showdown c1ShowWinners, (showdownG c1ShowState).2)
    ∧ (showdownG c1ShowState).2.pot = 0 :=
  ⟨by decide,
   C1_chip_conservation_amended.1 c1State 0 actCall 0 (.next_turn 1) _ (by decide)
     (fun ws h => Advance.noConfusion h),
   by decide,
   (C1_chip_conservation_amended.2 c1ShowState c1ShowWinners _ (by decide)).1⟩

-- ─── C10 ────────────────────────────────────────────────────────────────────

/-- Claim C10: the stored `minRaise` never constrains raising.  Whenever it is
a player's turn, a raise succeeds for any `amount` with
`callAmount < amount ≤ chips + bet` no matter what `minRaise` holds, and the
state handed to `advanceTurn` has `minRaise = 0` (the code assigns
`amount - callAmount` after `callAmount` has already been set to `amount`). -/
theorem C10_minRaise_never_enforced :
    ∀ (g : GameState) (p : Player) (amt mr : Int),
      0 ≤ g.currentIndex →
      g.players.get? g.currentIndex.toNat = some p →
      g.callAmount < amt →
      amt ≤ p.chips + p.bet →
      ∃ (adv : Advance) (g' : GameState) (m : GameState),
        applyAction { g with minRaise := mr } p.id actRaise amt = (.ok adv, g') ∧
        actionSwitch { g with minRaise := mr } p.id actRaise amt = .ok m ∧
        m.minRaise = 0 := by
  intro g p amt mr h0 hp hlt hle
  have hE : (if 0 ≤ ({ g with minRaise := mr } : GameState).currentIndex then
      ({ g with minRaise := mr } : GameState).players.get?
        ({ g with minRaise := mr } : GameState).currentIndex.toNat else none) = some p := by
    rw [if_pos h0]; exact hp
  have hswitch : actionSwitch { g with minRaise := mr } p.id actRaise amt =
      .ok { doRaise { g with minRaise := mr } g.currentIndex.toNat p amt with
            actedThisRound :=
              setAdd (doRaise { g with minRaise := mr } g.currentIndex.toNat p amt).actedThisRound
                p.id } := by
    unfold actionSwitch
    rw [hE]
    simp only [beq_self_eq_true, Bool.not_true, Bool.false_eq_true, not_false_eq_true,
      if_false, show (actRaise == actFold) = false from rfl,
      show (actRaise == actCheck) = false from rfl,
      show (actRaise == actCall) = false from rfl,
      show (actRaise == actRaise) = true from rfl, if_true]
    rw [if_neg (not_le.mpr hlt), if_neg (not_lt.mpr hle)]
  have happ : applyAction { g with minRaise := mr } p.id actRaise amt =
      (.ok (advanceTurn { doRaise { g with minRaise := mr } g.currentIndex.toNat p amt with
              actedThisRound :=
                setAdd (doRaise { g with minRaise := mr } g.currentIndex.toNat p amt).actedThisRound
                  p.id }).1,
        (advanceTurn { doRaise { g with minRaise := mr } g.currentIndex.toNat p amt with
              actedThisRound :=
                setAdd (doRaise { g with minRaise := mr } g.currentIndex.toNat p amt).actedThisRound
                  p.id }).2) := by
    unfold applyAction
    rw [hswitch]
  exact ⟨_, _, _, happ, hswitch, by simp [doRaise, addLogG]⟩

/-- Witness for C10 at `c1State` (seat 0's turn, raise to 20 over a call
amount of 10 with `minRaise` forced to 5). -/
theorem C10_minRaise_never_enforced_witness :
    (0 : Int) ≤ c1State.currentIndex ∧
    c1State.players.get? c1State.currentIndex.toNat = some (c1State.players.getD 0 dPlayer) ∧
    c1State.callAmount < 20 ∧
    (20 : Int) ≤ (c1State.players.getD 0 dPlayer).chips + (c1State.players.getD 0 dPlayer).bet ∧
    (∃ (adv : Advance) (g' : GameState) (m : GameState),
      applyAction { c1State with minRaise := 5 } (c1State.players.getD 0 dPlayer).id actRaise 20 =
        (.ok adv, g') ∧
      actionSwitch { c1State with minRaise := 5 } (c1State.players.getD 0 dPlayer).id actRaise 20 =
        .ok m ∧
      m.minRaise = 0) :=
  ⟨by decide, by decide, by decide, by decide,
   C10_minRaise_never_enforced c1State (c1State.players.getD 0 dPlayer) 20 5
     (by decide) (by decide) (by decide) (by decide)⟩

-- ─── C2 ─────────────────────────────────────────────────────────────────────

lemma actionSwitch_error (g : GameState) (pid : Nat) (act : String) (amt : Int)
    (e : ErrKind) (h : actionSwitch g pid act amt = .error e) :
    e = .NotYourTurn ∨ e = .MustCallOrFold ∨ e = .RaiseTooLow ∨
      e = .InsufficientChips ∨ e = .UnknownAction := by
  unfold actionSwitch at h
  cases hE : (if 0 ≤ g.currentIndex then g.players.get? g.currentIndex.toNat else none) with
  | none =>
    rw [hE] at h
    simp only [Except.error.injEq] at h
    exact Or.inl h.symm
  | some p =>
    rw [hE] at h
    by_cases hid : (p.id == pid) = true
    case neg =>
      simp only [hid, Bool.not_eq_true', Bool.not_true, Bool.false_eq_true, if_true,
        Bool.not_false, if_pos, Except.error.injEq] at h
      exact Or.inl h.symm
    case pos =>
      simp only [hid, Bool.not_true, Bool.false_eq_true, not_false_eq_true, if_false] at h
      by_cases hf : (act == actFold) = true
      · simp only [hf, if_true] at h
        exact absurd h (by simp)
      · simp only [hf, Bool.false_eq_true, if_false] at h
        by_cases hc : (act == actCheck) = true
        · simp only [hc, if_true] at h
          by_cases ht : 0 < g.callAmount - p.bet
          · rw [if_pos ht] at h
            simp only [Except.error.injEq] at h
            exact Or.inr (Or.inl h.symm)
          · rw [if_neg ht] at h
            exact absurd h (by simp)
        · simp only [hc, Bool.false_eq_true, if_false] at h
          by_cases hca : (act == actCall) = true
          · simp only [hca, if_true] at h
            exact absurd h (by simp)
          · simp only [hca, Bool.false_eq_true, if_false] at h
            by_cases hr : (act == actRaise) = true
            · simp only [hr, if_true] at h
              by_cases hr1 : amt ≤ g.callAmount
              · rw [if_pos hr1] at h
                simp only [Except.error.injEq] at h
                exact Or.inr (Or.inr (Or.inl h.symm))
              · rw [if_neg hr1] at h
                by_cases hr2 : p.chips + p.bet < amt
                · rw [if_pos hr2] at h
                  simp only [Except.error.injEq] at h
                  exact Or.inr (Or.inr (Or.inr (Or.inl h.symm)))
                · rw [if_neg hr2] at h
                  exact absurd h (by simp)
            · simp only [hr, Bool.false_eq_true, if_false] at h
              by_cases ha : (act == actAllin) = true
              · simp only [ha, if_true] at h
                exact absurd h (by simp)
              · simp only [ha, Bool.false_eq_true, if_false, Except.error.injEq] at h
                exact Or.inr (Or.inr (Or.inr (Or.inr h.symm)))

/-- Claim C2: every engine entry point that returns an error leaves the state
exactly as it was (no partial mutation); `addPlayer` fails only with
`TableFull`/`AlreadySeated`, `startHand` only with `NotEnoughPlayers`,
`applyAction` only with `NotYourTurn`/`MustCallOrFold`/`RaiseTooLow`/
`InsufficientChips`/`UnknownAction`; and a raise with a negative amount, made
on the acting player's turn with a non-negative call amount, is rejected with
`RaiseTooLow` leaving the state unchanged. -/
theorem C2_errors_leave_state_unchanged :
    (∀ (g : GameState) (id : Nat) (nm : String) (st : Int) (em : String)
        (e : ErrKind) (g' : GameState),
        addPlayer g id nm st em = (.error e, g') →
        g' = g ∧ (e = .TableFull ∨ e = .AlreadySeated))
    ∧ (∀ (g : GameState) (osb obb : Option Int) (rand : List Nat)
        (e : ErrKind) (g' : GameState),
        startHand g osb obb rand = (.error e, g') →
        g' = g ∧ e = .NotEnoughPlayers)
    ∧ (∀ (g : GameState) (pid : Nat) (act : String) (amt : Int)
        (e : ErrKind) (g' : GameState),
        applyAction g pid act amt = (.error e, g') →
        g' = g ∧ (e = .NotYourTurn ∨ e = .MustCallOrFold ∨ e = .RaiseTooLow ∨
          e = .InsufficientChips ∨ e = .UnknownAction))
    ∧ (∀ (g : GameState) (p : Player) (amt : Int),
        0 ≤ g.currentIndex →
        g.players.get? g.currentIndex.toNat = some p →
        amt < 0 → 0 ≤ g.callAmount →
        applyAction g p.id actRaise amt = (.error .RaiseTooLow, g)) := by
  refine ⟨?_, ?_, ?_, ?_⟩
  · intro g id nm st em e g' h
    unfold addPlayer at h
    split at h
    · split at h
      · exact absurd h (by simp)
      · simp only [Prod.mk.injEq, Except.error.injEq] at h
        exact ⟨h.2.symm, Or.inr h.1.symm⟩
    · split at h
      · simp only [Prod.mk.injEq, Except.error.injEq] at h
        exact ⟨h.2.symm, Or.inl h.1.symm⟩
      · exact absurd h (by simp)
  · intro g osb obb rand e g' h
    unfold startHand at h
    by_cases hn : (activePlayers g).length < 2
    · rw [if_pos hn] at h
      simp only [Prod.mk.injEq, Except.error.injEq] at h
      exact ⟨h.2.symm, h.1.symm⟩
    · rw [if_neg hn] at h
      exact absurd h (by simp)
  · intro g pid act amt e g' h
    unfold applyAction at h
    cases hs : actionSwitch g pid act amt with
    | ok m =>
      rw [hs] at h
      exact absurd h (by simp)
    | error e0 =>
      rw [hs] at h
      simp only [Prod.mk.injEq, Except.error.injEq] at h
      obtain ⟨he, hg⟩ := h
      subst he
      exact ⟨hg.symm, actionSwitch_error g pid act amt _ hs⟩
  · intro g p amt h0 hp hneg hca
    have hE : (if 0 ≤ g.currentIndex then g.players.get? g.currentIndex.toNat else none)
        = some p := by
      rw [if_pos h0]; exact hp
    have hsw : actionSwitch g p.id actRaise amt = .error .RaiseTooLow := by
      unfold actionSwitch
      rw [hE]
      simp only [beq_self_eq_true, Bool.not_true, Bool.false_eq_true, not_false_eq_true,
        if_false, show (actRaise == actFold) = false from rfl,
        show (actRaise == actCheck) = false from rfl,
        show (actRaise == actCall) = false from rfl,
        show (actRaise == actRaise) = true from rfl, if_true]
      rw [if_pos (le_trans (le_of_lt hneg) hca)]
    unfold applyAction
    rw [hsw]

/-- Witness for C2: `addPlayer` on an already-connected id, `startHand` on an
empty table, `applyAction` out of turn, and a negative raise on the acting
player's turn, each at a concrete state. -/
theorem C2_errors_leave_state_unchanged_witness :
    addPlayer c1State 0 ("z") 0 ("z") = (.error .AlreadySeated, (addPlayer c1State 0 ("z") 0 ("z")).2)
    ∧ (addPlayer c1State 0 ("z") 0 ("z")).2 = c1State
    ∧ startHand c2Empty none none [] = (.error .NotEnoughPlayers, (startHand c2Empty none none []).2)
    ∧ (startHand c2Empty none none []).2 = c2Empty
    ∧ applyAction c1State 5 actFold 0 = (.error .NotYourTurn, (applyAction c1State 5 actFold 0).2)
    ∧ (applyAction c1State 5 actFold 0).2 = c1State
    ∧ applyAction c1State (c1State.players.getD 0 dPlayer).id actRaise (-5) =
        (.error .RaiseTooLow, c1State) :=
  ⟨by decide,
   (C2_errors_leave_state_unchanged.1 c1State 0 ("z") 0 ("z") .AlreadySeated _ (by decide)).1,
   by decide,
   (C2_errors_leave_state_unchanged.2.1 c2Empty none none [] .NotEnoughPlayers _ (by decide)).1,
   by decide,
   (C2_errors_leave_state_unchanged.2.2.1 c1State 5 actFold 0 .NotYourTurn _ (by decide)).1,
   C2_errors_leave_state_unchanged.2.2.2 c1State (c1State.players.getD 0 dPlayer) (-5)
     (by decide) (by decide) (by decide) (by decide)⟩

-- ─── C6 ─────────────────────────────────────────────────────────────────────

lemma advanceTurn_one (m : GameState) (w : Player) (hw : inHandPlayers m = [w]) :
    advanceTurn m =
      (.hand_over [{ id := w.id, name := w.name, handName := none, amount := 0 }],
       { addLogG
           { m with
             players := (m.players.set (m.players.findIdx inHandB)
               ({ w with chips := w.chips + m.pot })) }
           (w.name ++ (" wins $") ++ toString m.pot ++ (" (everyone folded)!")) with
         pot := 0
         phase := Phase.waiting }) := by
  unfold advanceTurn
  simp only [hw, List.length_singleton, beq_self_eq_true, if_true, List.getD_cons_zero]

/-- Claim C6: if, after a successful action, exactly one non-folded player
holding a hand remains, the hand ends at once with `hand_over` (no showdown):
that player's chips grow by the full pot, the pot becomes 0 and the phase
returns to `waiting`. -/
theorem C6_lone_player_wins_pot :
    ∀ (g : GameState) (pid : Nat) (act : String) (amt : Int) (m : GameState),
      actionSwitch g pid act amt = .ok m →
      (inHandPlayers m).length = 1 →
      ∃ (i : Nat) (w : Player),
        m.players.get? i = some w ∧ inHandB w = true ∧
        (applyAction g pid act amt).1 =
          .ok (.hand_over [{ id := w.id, name := w.name, handName := none, amount := 0 }]) ∧
        (applyAction g pid act amt).2.phase = .waiting ∧
        (applyAction g pid act amt).2.pot = 0 ∧
        (applyAction g pid act amt).2.players =
          m.players.set i { w with chips := w.chips + m.pot } := by
  intro g pid act amt m hs hlen
  obtain ⟨w, hw⟩ := List.length_eq_one.mp hlen
  have hg := get_findIdx_of_filter inHandB m.players w [] hw
  have hwmem : w ∈ inHandPlayers m := by rw [hw]; exact List.mem_singleton_self w
  have hwin : inHandB w = true := List.of_mem_filter hwmem
  have happ : applyAction g pid act amt = (.ok (advanceTurn m).1, (advanceTurn m).2) := by
    unfold applyAction
    rw [hs]
  refine ⟨m.players.findIdx inHandB, w, hg, hwin, ?_, ?_, ?_, ?_⟩
  · rw [happ, advanceTurn_one m w hw]
  · rw [happ, advanceTurn_one m w hw]
  · rw [happ, advanceTurn_one m w hw]
  · rw [happ, advanceTurn_one m w hw]
    rfl

/-- Witness for C6: on `c6State` seat 0 folds, leaving seat 1 as the only
player holding a hand. -/
theorem C6_lone_player_wins_pot_witness :
    actionSwitch c6State 0 actFold 0 = .ok c6Mid ∧
    (inHandPlayers c6Mid).length = 1 ∧
    (∃ (i : Nat) (w : Player),
      c6Mid.players.get? i = some w ∧ inHandB w = true ∧
      (applyAction c6State 0 actFold 0).1 =
        .ok (.hand_over [{ id := w.id, name := w.name, handName := none, amount := 0 }]) ∧
      (applyAction c6State 0 actFold 0).2.phase = .waiting ∧
      (applyAction c6State 0 actFold 0).2.pot = 0 ∧
      (applyAction c6State 0 actFold 0).2.players =
        c6Mid.players.set i { w with chips := w.chips + c6Mid.pot }) :=
  ⟨by decide, by decide,
   C6_lone_player_wins_pot c6State 0 actFold 0 c6Mid (by decide) (by decide)⟩

-- ─── C9 ─────────────────────────────────────────────────────────────────────

/-- Claim C9: the view `getStateFor` mirrors the game state field for field,
except that each seat's `hand` is nulled unless the viewer is that seat or the
phase is `showdown`; consequently two states that differ only in the hole
cards of seats other than the viewer (same card counts) produce identical
views outside showdown — hole cards do not leak. -/
theorem C9_getStateFor_redacts_hands :
    (∀ (g : GameState) (v : Option Nat),
      (getStateFor g v).phase = g.phase ∧
      (getStateFor g v).pot = g.pot ∧
      (getStateFor g v).community = g.community ∧
      (getStateFor g v).dealerIndex = g.dealerIndex ∧
      (getStateFor g v).callAmount = g.callAmount ∧
      (getStateFor g v).minRaise = g.minRaise ∧
      (getStateFor g v).handNumber = g.handNumber ∧
      (getStateFor g v).log = g.log.take 20 ∧
      (getStateFor g v).currentPlayerId =
        (if 0 ≤ g.currentIndex then g.players.get? g.currentIndex.toNat else none).map
          (fun p => p.id) ∧
      ∀ (i : Nat) (p : Player), g.players.get? i = some p →
        (getStateFor g v).players.get? i = some
          { id := p.id, name := p.name, chips := p.chips, bet := p.bet, folded := p.folded,
            allIn := p.allIn, connected := p.connected, seatIndex := p.seatIndex,
            cardCount := p.hand.length,
            buyIns := if p.buyIns == 0 then 1 else p.buyIns,
            emoji := if p.emoji == "" then ("M") else p.emoji,
            hand := if v == some p.id || g.phase == Phase.showdown then some p.hand else none })
    ∧ (∀ (g1 g2 : GameState) (v : Option Nat),
        g1.phase ≠ .showdown →
        g2.phase = g1.phase → g2.pot = g1.pot → g2.community = g1.community →
        g2.dealerIndex = g1.dealerIndex → g2.currentIndex = g1.currentIndex →
        g2.callAmount = g1.callAmount → g2.minRaise = g1.minRaise →
        g2.handNumber = g1.handNumber → g2.log = g1.log →
        g2.players.length = g1.players.length →
        (∀ (i : Nat) (p1 p2 : Player), g1.players.get? i = some p1 →
          g2.players.get? i = some p2 →
          p2 = { p1 with hand := p2.hand } ∧ p2.hand.length = p1.hand.length ∧
            (p1.hand ≠ p2.hand → v ≠ some p1.id)) →
        getStateFor g1 v = getStateFor g2 v) := by
  constructor
  · intro g v
    refine ⟨rfl, rfl, rfl, rfl, rfl, rfl, rfl, rfl, rfl, ?_⟩
    intro i p hp
    unfold getStateFor
    simp only [List.get?_map, hp, Option.map_some']
    rfl
  · intro g1 g2 v hns hph hpot hcom hdl hci hca hmr hhn hlog hlen hrel
    have hview : ∀ (i : Nat) (p1 p2 : Player), g1.players.get? i = some p1 →
        g2.players.get? i = some p2 →
        viewOfPlayer g1.phase v p1 = viewOfPlayer g2.phase v p2 := by
      intro i p1 p2 h1 h2
      obtain ⟨hq, hl2, hv⟩ := hrel i p1 p2 h1 h2
      unfold viewOfPlayer
      rw [hph, hq]
      have hhand : (if v == some p1.id || g1.phase == Phase.showdown then some p1.hand else none)
          = (if v == some p1.id || g1.phase == Phase.showdown then some p2.hand else none) := by
        by_cases hc : (v == some p1.id || g1.phase == Phase.showdown) = true
        · rw [if_pos hc, if_pos hc]
          have hsd : (g1.phase == Phase.showdown) = false := by
            simp only [beq_eq_false_iff_ne, ne_eq]
            exact hns
          rw [hsd, Bool.or_false] at hc
          have hveq : v = some p1.id := by simpa using hc
          by_cases hh : p1.hand = p2.hand
          · rw [hh]
          · exact absurd hveq (hv hh)
        · rw [if_neg hc, if_neg hc]
      simp only [hl2, hhand]
    have hplayers : g1.players.map (viewOfPlayer g1.phase v) =
        g2.players.map (viewOfPlayer g2.phase v) := by
      apply List.ext_get?
      intro i
      rw [List.get?_map, List.get?_map]
      cases h1 : g1.players.get? i with
      | none =>
        have h2 : g2.players.get? i = none := by
          rw [List.get?_eq_none] at h1 ⊢
          rw [hlen]
          exact h1
        rw [h2]
        rfl
      | some p1 =>
        cases h2 : g2.players.get? i with
        | none =>
          rw [List.get?_eq_none] at h2
          rw [hlen] at h2
          rw [List.get?_eq_none.mpr h2] at h1
          exact absurd h1 (by simp)
        | some p2 =>
          simp only [Option.map_some']
          rw [hview i p1 p2 h1 h2]
    have hcpid : (if 0 ≤ g1.currentIndex then g1.players.get? g1.currentIndex.toNat else none).map
          (fun p => p.id) =
        (if 0 ≤ g2.currentIndex then g2.players.get? g2.currentIndex.toNat else none).map
          (fun p => p.id) := by
      rw [hci]
      by_cases h0 : 0 ≤ g1.currentIndex
      · rw [if_pos h0, if_pos h0]
        cases h1 : g1.players.get? g1.currentIndex.toNat with
        | none =>
          have h2 : g2.players.get? g1.currentIndex.toNat = none := by
            rw [List.get?_eq_none] at h1 ⊢
            rw [hlen]
            exact h1
          rw [h2]
        | some p1 =>
          cases h2 : g2.players.get? g1.currentIndex.toNat with
          | none =>
            rw [List.get?_eq_none] at h2
            rw [hlen] at h2
            rw [List.get?_eq_none.mpr h2] at h1
            exact absurd h1 (by simp)
          | some p2 =>
            obtain ⟨hq, -, -⟩ := hrel _ p1 p2 h1 h2
            simp only [Option.map_some']
            rw [hq]
      · rw [if_neg h0, if_neg h0]
    unfold getStateFor
    simp only [StateView.mk.injEq]
    exact ⟨hph.symm, hpot.symm, hcom.symm, hdl.symm, hcpid, hca.symm, hmr.symm, hhn.symm,
      hplayers, by rw [hlog]⟩

/-- Witness for C9: outside showdown, a viewer (seat 0) sees the same view of
`c1State` and of `c9StateB`, which differ only in seat 1's hole cards. -/
theorem C9_getStateFor_redacts_hands_witness :
    c1State.phase ≠ .showdown ∧
    getStateFor c1State (some 0) = getStateFor c9StateB (some 0) :=
  ⟨by decide,
   C9_getStateFor_redacts_hands.2 c1State c9StateB (some 0) (by decide) (by decide) (by decide)
     (by decide) (by decide) (by decide) (by decide) (by decide) (by decide) (by decide)
     (by decide)
     (by
       intro i p1 p2 h1 h2
       cases i with
       | zero =>
         simp only [show c1State.players.get? 0 = some (c1State.players.getD 0 dPlayer)
           from by decide, Option.some.injEq] at h1
         simp only [show c9StateB.players.get? 0 = some (c9StateB.players.getD 0 dPlayer)
           from by decide, Option.some.injEq] at h2
         subst h1
         subst h2
         decide
       | succ j =>
         cases j with
         | zero =>
           simp only [show c1State.players.get? 1 = some (c1State.players.getD 1 dPlayer)
             from by decide, Option.some.injEq] at h1
           simp only [show c9StateB.players.get? 1 = some (c9StateB.players.getD 1 dPlayer)
             from by decide, Option.some.injEq] at h2
           subst h1
           subst h2
           decide
         | succ k =>
           exact absurd h1 (by simp [c1State, mkG, mkP]))⟩

-- ─── RUNNING-MAXIMUM FOLD LEMMAS ────────────────────────────────────────────

lemma foldlMax_ge_init {α : Type} (f : α → Int) (l : List α) :
    ∀ acc : Int, acc ≤ l.foldl (fun a x => if f x > a then f x else a) acc := by
  induction l with
  | nil => intro acc; exact le_refl acc
  | cons x t ih =>
    intro acc
    simp only [List.foldl_cons]
    by_cases h : f x > acc
    · rw [if_pos h]
      exact le_trans (le_of_lt h) (ih (f x))
    · rw [if_neg h]
      exact ih acc

lemma foldlMax_ge_mem {α : Type} (f : α → Int) (l : List α) :
    ∀ (acc : Int) (y : α), y ∈ l →
      f y ≤ l.foldl (fun a x => if f x > a then f x else a) acc := by
  induction l with
  | nil => intro acc y hy; exact absurd hy (List.not_mem_nil y)
  | cons x t ih =>
    intro acc y hy
    simp only [List.foldl_cons]
    rcases List.mem_cons.mp hy with rfl | hmem
    · have hstep : f y ≤ if f y > acc then f y else acc := by
        by_cases h : f y > acc
        · rw [if_pos h]
        · rw [if_neg h]
          exact le_of_not_lt h
      exact le_trans hstep (foldlMax_ge_init f t _)
    · exact ih _ y hmem

lemma foldlMax_eq_init_or_mem {α : Type} (f : α → Int) (l : List α) :
    ∀ acc : Int,
      l.foldl (fun a x => if f x > a then f x else a) acc = acc ∨
        ∃ y ∈ l, l.foldl (fun a x => if f x > a then f x else a) acc = f y := by
  induction l with
  | nil => intro acc; exact Or.inl rfl
  | cons x t ih =>
    intro acc
    simp only [List.foldl_cons]
    by_cases h : f x > acc
    · rw [if_pos h]
      rcases ih (f x) with heq | ⟨y, hy, heq⟩
      · exact Or.inr ⟨x, List.mem_cons_self x t, heq⟩
      · exact Or.inr ⟨y, List.mem_cons_of_mem x hy, heq⟩
    · rw [if_neg h]
      rcases ih acc with heq | ⟨y, hy, heq⟩
      · exact Or.inl heq
      · exact Or.inr ⟨y, List.mem_cons_of_mem x hy, heq⟩

-- ─── C7 ─────────────────────────────────────────────────────────────────────

lemma sdBest_eq_internal (g : GameState) :
    ((inHandPlayers g).map fun p => (p, bestOf7 (p.hand ++ g.community))).foldl
      (fun acc pr => if (pr.2.score : Int) > acc then (pr.2.score : Int) else acc) (-1)
      = sdBest g := by
  unfold sdBest
  rw [List.foldl_map]
  rfl

lemma sdBest_max (g : GameState) :
    ∀ p ∈ inHandPlayers g, (sdScore g p : Int) ≤ sdBest g := by
  intro p hp
  unfold sdBest
  exact foldlMax_ge_mem (fun q => (sdScore g q : Int)) (inHandPlayers g) (-1) p hp

lemma sdBest_attained (g : GameState) (hne : inHandPlayers g ≠ []) :
    ∃ wp, wp ∈ inHandPlayers g ∧ (sdScore g wp : Int) = sdBest g := by
  obtain ⟨y, hy⟩ := List.exists_mem_of_ne_nil _ hne
  rcases foldlMax_eq_init_or_mem (fun q => (sdScore g q : Int)) (inHandPlayers g) (-1) with
    heq | ⟨w, hw, heq⟩
  · exfalso
    have h1 : (sdScore g y : Int) ≤ sdBest g := sdBest_max g y hy
    have h2 : (0 : Int) ≤ (sdScore g y : Int) := Int.natCast_nonneg _
    unfold sdBest at h1
    rw [heq] at h1
    omega
  · exact ⟨w, hw, heq.symm⟩

lemma sdBest_eq_internalF (g : GameState) :
    ((g.players.filter inHandB).map fun p => (p, bestOf7 (p.hand ++ g.community))).foldl
      (fun acc pr => if (pr.2.score : Int) > acc then (pr.2.score : Int) else acc) (-1)
      = sdBest g := sdBest_eq_internal g

lemma sdWinners_count (g : GameState) :
    (((g.players.filter inHandB).map fun p => (p, bestOf7 (p.hand ++ g.community))).filter
      (fun pr => (pr.2.score : Int) == sdBest g)).length =
      g.players.countP fun r => inHandB r && ((sdScore g r : Int) == sdBest g) := by
  rw [← List.countP_eq_length_filter, List.countP_map, List.countP_filter]
  refine List.countP_congr ?_
  intro a _
  simp only [Function.comp_apply, Bool.and_comm, sdScore]

lemma sdWinners_pos (g : GameState) (hne : inHandPlayers g ≠ []) :
    0 < g.players.countP fun r => inHandB r && ((sdScore g r : Int) == sdBest g) := by
  obtain ⟨wp, hmem, hsc⟩ := sdBest_attained g hne
  refine List.countP_pos.mpr ⟨wp, List.mem_of_mem_filter hmem, ?_⟩
  have hin : inHandB wp = true := List.of_mem_filter hmem
  simp [hin, hsc]

lemma showdownG_players (g : GameState) (hne : inHandPlayers g ≠ []) :
    (showdownG g).2.players = g.players.map fun q =>
      if inHandB q && ((sdScore g q : Int) == sdBest g) then
        { q with chips := (q.chips + Int.fdiv g.pot
            (g.players.countP fun r => inHandB r && ((sdScore g r : Int) == sdBest g))) }
      else q := by
  have hKpos := sdWinners_pos g hne
  unfold showdownG
  simp only [players_foldl_addLogG, players_addLogG, community_foldl_addLogG,
    community_addLogG, pot_foldl_addLogG, pot_addLogG, inHandPlayers_unfold]
  rw [sdBest_eq_internalF]
  simp only [sdWinners_count g]
  simp only [show ((g.players.countP fun r => inHandB r && ((sdScore g r : Int) == sdBest g)) == 0)
      = false from by simp [Nat.pos_iff_ne_zero.mp hKpos], Bool.false_eq_true, if_false]
  rfl

/-- Claim C7: at showdown every non-folded player holding a hand is evaluated
(best five of seven); `sdBest` is attained and bounds all of their scores;
every player tying the maximum — all of them — is credited the same share
`floor(pot / number_of_winners)`, everyone else is untouched; the pot becomes
0 and the phase returns to `waiting`. -/
theorem C7_showdown_pays_all_tied_winners :
    ∀ g : GameState, inHandPlayers g ≠ [] →
      (∃ wp, wp ∈ inHandPlayers g ∧ (sdScore g wp : Int) = sdBest g) ∧
      (∀ p ∈ inHandPlayers g, (sdScore g p : Int) ≤ sdBest g) ∧
      (showdownG g).2.pot = 0 ∧
      (showdownG g).2.phase = .waiting ∧
      (∀ (i : Nat) (p : Player), g.players.get? i = some p →
        (showdownG g).2.players.get? i = some
          (if inHandB p && ((sdScore g p : Int) == sdBest g) then
            { p with chips := (p.chips + Int.fdiv g.pot
                (g.players.countP fun r => inHandB r && ((sdScore g r : Int) == sdBest g))) }
           else p)) := by
  intro g hne
  refine ⟨sdBest_attained g hne, sdBest_max g, rfl, rfl, ?_⟩
  intro i p hp
  rw [showdownG_players g hne, List.get?_map, hp, Option.map_some']

/-- Witness for C7 at `c7State` (two showdown participants, pot 10). -/
theorem C7_showdown_pays_all_tied_winners_witness :
    inHandPlayers c7State ≠ [] ∧
    (showdownG c7State).2.pot = 0 ∧
    (showdownG c7State).2.phase = .waiting :=
  ⟨by decide,
   (C7_showdown_pays_all_tied_winners c7State (by decide)).2.2.1,
   (C7_showdown_pays_all_tied_winners c7State (by decide)).2.2.2.1⟩

-- ─── C8: AMENDED THEOREM ───────────────────────────────────────────────────

lemma toActB_false_iff (acted : List Nat) (ca : Int) (p : Player) :
    toActB acted ca p = false ↔
      (p.folded = true ∨ p.allIn = true ∨
        (acted.contains p.id = true ∧ ca ≤ p.bet)) := by
  unfold toActB
  cases hf : p.folded <;> cases ha : p.allIn <;> cases hc : acted.contains p.id <;>
    by_cases hb : p.bet < ca <;> simp [hf, ha, hc, hb, not_lt] <;> omega

lemma fntaGo_succ (ps : List Player) (acted : List Nat) (ca : Int) (i f : Nat) (p : Player)
    (hp : ps.get? i = some p) :
    fntaGo ps acted ca i (f + 1) =
      if toActB acted ca p then (i : Int) else fntaGo ps acted ca ((i + 1) % ps.length) f := by
  simp only [fntaGo]
  rw [hp]

lemma fntaGo_neg1_iff (ps : List Player) (acted : List Nat) (ca : Int) :
    ∀ (fuel i : Nat), i < ps.length →
      (fntaGo ps acted ca i fuel = -1 ↔
        ∀ k, k < fuel → ∀ p, ps.get? ((i + k) % ps.length) = some p →
          toActB acted ca p = false) := by
  intro fuel
  induction fuel with
  | zero =>
    intro i hi
    simp [fntaGo]
  | succ f ih =>
    intro i hi
    obtain ⟨p, hp⟩ : ∃ p, ps.get? i = some p := by
      rw [List.get?_eq_get hi]
      exact ⟨_, rfl⟩
    rw [fntaGo_succ ps acted ca i f p hp]
    by_cases hc : toActB acted ca p = true
    · rw [if_pos hc]
      constructor
      · intro habs
        have hge : (0 : Int) ≤ (i : Int) := Int.natCast_nonneg i
        omega
      · intro hall
        exfalso
        have h0 := hall 0 (Nat.succ_pos f) p (by rwa [Nat.add_zero, Nat.mod_eq_of_lt hi])
        rw [hc] at h0
        exact Bool.noConfusion h0
    · rw [if_neg hc]
      have hi' : (i + 1) % ps.length < ps.length := Nat.mod_lt _ (by omega)
      rw [ih ((i + 1) % ps.length) hi']
      constructor
      · intro hrec k hk q hq
        cases k with
        | zero =>
          rw [Nat.add_zero, Nat.mod_eq_of_lt hi, hp] at hq
          obtain rfl : p = q := by injection hq
          simpa using hc
        | succ j =>
          refine hrec j (by omega) q ?_
          rw [show ((i + 1) % ps.length + j) % ps.length = (i + (j + 1)) % ps.length from by
            rw [Nat.mod_add_mod]
            congr 1
            omega]
          exact hq
      · intro hall k hk q hq
        refine hall (k + 1) (by omega) q ?_
        rw [show (i + (k + 1)) % ps.length = ((i + 1) % ps.length + k) % ps.length from by
          rw [Nat.mod_add_mod]
          congr 1
          omega]
        exact hq

lemma fntaGo_found (ps : List Player) (acted : List Nat) (ca : Int) :
    ∀ (fuel i : Nat), i < ps.length → fntaGo ps acted ca i fuel ≠ -1 →
      ∃ (j : Nat) (p : Player), fntaGo ps acted ca i fuel = (j : Int) ∧ j < ps.length ∧
        ps.get? j = some p ∧ toActB acted ca p = true := by
  intro fuel
  induction fuel with
  | zero =>
    intro i hi hne
    exact absurd rfl hne
  | succ f ih =>
    intro i hi hne
    obtain ⟨p, hp⟩ : ∃ p, ps.get? i = some p := by
      rw [List.get?_eq_get hi]
      exact ⟨_, rfl⟩
    rw [fntaGo_succ ps acted ca i f p hp] at hne ⊢
    by_cases hc : toActB acted ca p = true
    · rw [if_pos hc] at hne ⊢
      exact ⟨i, p, rfl, hi, hp, hc⟩
    · rw [if_neg hc] at hne ⊢
      exact ih ((i + 1) % ps.length) (Nat.mod_lt _ (by omega)) hne

lemma mod_surj_on (n start j : Nat) (hn : 0 < n) (hj : j < n) :
    ∃ k, k < n ∧ (start + k) % n = j := by
  obtain ⟨s, hsdef⟩ : ∃ s, s = start % n := ⟨_, rfl⟩
  obtain ⟨m, hmdef⟩ : ∃ m, m = n * (start / n) := ⟨_, rfl⟩
  have hs : s < n := hsdef ▸ Nat.mod_lt _ hn
  have hdm : m + s = start := by
    rw [hsdef, hmdef]
    exact Nat.div_add_mod start n
  refine ⟨(n + j - s) % n, Nat.mod_lt _ hn, ?_⟩
  rw [Nat.add_mod_mod]
  have harith : start + (n + j - s) = m + (n + j) := by omega
  rw [harith, hmdef, Nat.mul_add_mod, Nat.add_mod_left, Nat.mod_eq_of_lt hj]

/-- Claim C8 (amended): `findNextToAct` returns -1 iff every player is folded,
all-in, or has acted this street with a bet of at least `callAmount` (not
exactly equal to it); otherwise it returns a valid seat index whose player is
non-folded, non-all-in, and either has not acted or has a bet strictly below
`callAmount`. -/
theorem C8_findNextToAct_amended :
    ∀ g : GameState, 0 < g.players.length →
      ((findNextToAct g = -1 ↔
        ∀ p ∈ g.players, p.folded = true ∨ p.allIn = true ∨
          (g.actedThisRound.contains p.id = true ∧ g.callAmount ≤ p.bet)) ∧
       (findNextToAct g ≠ -1 →
        ∃ (j : Nat) (p : Player), findNextToAct g = (j : Int) ∧ j < g.players.length ∧
          g.players.get? j = some p ∧ p.folded = false ∧ p.allIn = false ∧
          (g.actedThisRound.contains p.id = false ∨ p.bet < g.callAmount))) := by
  intro g hn
  have hn0 : g.players.length ≠ 0 := Nat.pos_iff_ne_zero.mp hn
  have hstart : ((g.currentIndex + 1).emod g.players.length).toNat < g.players.length := by
    have h1 : 0 ≤ (g.currentIndex + 1).emod g.players.length :=
      Int.emod_nonneg _ (by exact_mod_cast hn0)
    have h2 : (g.currentIndex + 1).emod g.players.length < g.players.length :=
      Int.emod_lt_of_pos _ (by exact_mod_cast hn)
    omega
  have hfeq : findNextToAct g = fntaGo g.players g.actedThisRound g.callAmount
      (((g.currentIndex + 1).emod g.players.length).toNat) g.players.length := by
    unfold findNextToAct
    rw [if_neg hn0]
  constructor
  · rw [hfeq,
      fntaGo_neg1_iff g.players g.actedThisRound g.callAmount g.players.length _ hstart]
    constructor
    · intro hall p hp
      obtain ⟨j, hj⟩ := List.mem_iff_get?.mp hp
      have hjlt : j < g.players.length := by
        obtain ⟨hlt, -⟩ := List.get?_eq_some.mp hj
        exact hlt
      obtain ⟨k, hk, hkj⟩ :=
        mod_surj_on g.players.length (((g.currentIndex + 1).emod g.players.length).toNat)
          j hn hjlt
      have hcf := hall k hk p (by rw [hkj]; exact hj)
      exact (toActB_false_iff _ _ p).mp hcf
    · intro hall k hk q hq
      exact (toActB_false_iff _ _ q).mpr (hall q (List.get?_mem hq))
  · intro hne
    rw [hfeq] at hne ⊢
    obtain ⟨j, p, heq, hjlt, hget, hcond⟩ :=
      fntaGo_found g.players g.actedThisRound g.callAmount g.players.length _ hstart hne
    refine ⟨j, p, heq, hjlt, hget, ?_⟩
    unfold toActB at hcond
    simp only [Bool.and_eq_true, Bool.not_eq_true', Bool.or_eq_true,
      decide_eq_true_eq] at hcond
    obtain ⟨⟨hf, ha⟩, hor⟩ := hcond
    exact ⟨hf, ha, hor⟩

/-- Witness for the amended C8 at `c8State` (both seats acted with bets above
the call amount, so `findNextToAct` reports no seat to act). -/
theorem C8_findNextToAct_amended_witness :
    0 < c8State.players.length ∧
    (∀ p ∈ c8State.players, p.folded = true ∨ p.allIn = true ∨
      (c8State.actedThisRound.contains p.id = true ∧ c8State.callAmount ≤ p.bet)) :=
  ⟨by decide, ((C8_findNextToAct_amended c8State (by decide)).1).mp (by decide)⟩

-- ─── C4 ─────────────────────────────────────────────────────────────────────

lemma bestStep_skip (cards : List Card) (acc : Option HandResult) (ij : Nat × Nat)
    (hg : (fiveOf cards ij.1 ij.2).length ≠ 5) : bestStep cards acc ij = acc := by
  unfold bestStep
  rw [if_pos hg]

lemma bestStep_none (cards : List Card) (ij : Nat × Nat)
    (hg : (fiveOf cards ij.1 ij.2).length = 5) :
    bestStep cards none ij = some (evalFive (fiveOf cards ij.1 ij.2)) := by
  unfold bestStep
  rw [if_neg (by simp [hg])]

lemma bestStep_some (cards : List Card) (b : HandResult) (ij : Nat × Nat)
    (hg : (fiveOf cards ij.1 ij.2).length = 5) :
    bestStep cards (some b) ij =
      (if b.score < (evalFive (fiveOf cards ij.1 ij.2)).score then
        some (evalFive (fiveOf cards ij.1 ij.2)) else some b) := by
  unfold bestStep
  rw [if_neg (by simp [hg])]

lemma bestFold_mono (cards : List Card) :
    ∀ (L : List (Nat × Nat)) (b : HandResult),
      ∃ b', L.foldl (bestStep cards) (some b) = some b' ∧ b.score ≤ b'.score := by
  intro L
  induction L with
  | nil => exact fun b => ⟨b, rfl, le_refl _⟩
  | cons x t ih =>
    intro b
    simp only [List.foldl_cons]
    by_cases hg : (fiveOf cards x.1 x.2).length = 5
    · rw [bestStep_some cards b x hg]
      by_cases hlt : b.score < (evalFive (fiveOf cards x.1 x.2)).score
      · rw [if_pos hlt]
        obtain ⟨b', hf, hle⟩ := ih (evalFive (fiveOf cards x.1 x.2))
        exact ⟨b', hf, le_trans (le_of_lt hlt) hle⟩
      · rw [if_neg hlt]
        exact ih b
    · rw [bestStep_skip cards (some b) x hg]
      exact ih b

lemma bestFold_ge (cards : List Card) :
    ∀ (L : List (Nat × Nat)) (acc : Option HandResult) (ij : Nat × Nat), ij ∈ L →
      (fiveOf cards ij.1 ij.2).length = 5 →
      ∃ b', L.foldl (bestStep cards) acc = some b' ∧
        (evalFive (fiveOf cards ij.1 ij.2)).score ≤ b'.score := by
  intro L
  induction L with
  | nil =>
    intro acc ij hmem
    exact absurd hmem (List.not_mem_nil ij)
  | cons x t ih =>
    intro acc ij hmem hg
    simp only [List.foldl_cons]
    rcases List.mem_cons.mp hmem with rfl | hmem'
    · have hstep : ∃ c : HandResult, bestStep cards acc ij = some c ∧
          (evalFive (fiveOf cards ij.1 ij.2)).score ≤ c.score := by
        cases acc with
        | none => exact ⟨_, bestStep_none cards ij hg, le_refl _⟩
        | some b =>
          rw [bestStep_some cards b ij hg]
          by_cases hlt : b.score < (evalFive (fiveOf cards ij.1 ij.2)).score
          · rw [if_pos hlt]
            exact ⟨_, rfl, le_refl _⟩
          · rw [if_neg hlt]
            exact ⟨b, rfl, le_of_not_lt hlt⟩
      obtain ⟨c, hstepe, hle⟩ := hstep
      rw [hstepe]
      obtain ⟨b', hf, hle2⟩ := bestFold_mono cards t c
      exact ⟨b', hf, le_trans hle hle2⟩
    · exact ih (bestStep cards acc x) ij hmem' hg

lemma bestFold_mem (cards : List Card) :
    ∀ (L : List (Nat × Nat)) (acc : Option HandResult),
      L.foldl (bestStep cards) acc = acc ∨
      ∃ ij ∈ L, (fiveOf cards ij.1 ij.2).length = 5 ∧
        L.foldl (bestStep cards) acc = some (evalFive (fiveOf cards ij.1 ij.2)) := by
  intro L
  induction L with
  | nil => exact fun acc => Or.inl rfl
  | cons x t ih =>
    intro acc
    simp only [List.foldl_cons]
    by_cases hg : (fiveOf cards x.1 x.2).length = 5
    · cases acc with
      | none =>
        rw [bestStep_none cards x hg]
        rcases ih (some (evalFive (fiveOf cards x.1 x.2))) with h | ⟨ij, hmem, hg5, heq⟩
        · exact Or.inr ⟨x, List.mem_cons_self x t, hg, h⟩
        · exact Or.inr ⟨ij, List.mem_cons_of_mem x hmem, hg5, heq⟩
      | some b =>
        rw [bestStep_some cards b x hg]
        by_cases hlt : b.score < (evalFive (fiveOf cards x.1 x.2)).score
        · rw [if_pos hlt]
          rcases ih (some (evalFive (fiveOf cards x.1 x.2))) with h | ⟨ij, hmem, hg5, heq⟩
          · exact Or.inr ⟨x, List.mem_cons_self x t, hg, h⟩
          · exact Or.inr ⟨ij, List.mem_cons_of_mem x hmem, hg5, heq⟩
        · rw [if_neg hlt]
          rcases ih (some b) with h | ⟨ij, hmem, hg5, heq⟩
          · exact Or.inl h
          · exact Or.inr ⟨ij, List.mem_cons_of_mem x hmem, hg5, heq⟩
    · rw [bestStep_skip cards acc x hg]
      rcases ih acc with h | ⟨ij, hmem, hg5, heq⟩
      · exact Or.inl h
      · exact Or.inr ⟨ij, List.mem_cons_of_mem x hmem, hg5, heq⟩

lemma pairsUpTo_mem (n i j : Nat) :
    (i, j) ∈ pairsUpTo n ↔ i < n ∧ i < j ∧ j < n := by
  unfold pairsUpTo
  simp only [List.mem_flatMap, List.mem_map, List.mem_filter, List.mem_range, Prod.mk.injEq]
  constructor
  · rintro ⟨a, ha, b, ⟨hb, hab⟩, rfl, rfl⟩
    exact ⟨ha, by simpa using hab, hb⟩
  · rintro ⟨hi, hij, hj⟩
    exact ⟨i, hi, j, ⟨hj, by simpa using hij⟩, rfl, rfl⟩

lemma exists_seven (l : List Card) (h : l.length = 7) :
    ∃ a b c d e f g2, l = [a, b, c, d, e, f, g2] := by
  cases l with
  | nil => simp at h
  | cons a t1 =>
    cases t1 with
    | nil => simp at h
    | cons b t2 =>
      cases t2 with
      | nil => simp at h
      | cons c t3 =>
        cases t3 with
        | nil => simp at h
        | cons d t4 =>
          cases t4 with
          | nil => simp at h
          | cons e t5 =>
            cases t5 with
            | nil => simp at h
            | cons f t6 =>
              cases t6 with
              | nil => simp at h
              | cons g2 t7 =>
                cases t7 with
                | nil => exact ⟨a, b, c, d, e, f, g2, rfl⟩
                | cons x t8 => simp at h

/-- Claim C4: on 7 cards, `bestOf7` returns the `evalFive` result of one of
the C(7,5) = 21 five-card sublists (drop two positions `i < j < 7`), and its
score is at least the score of `evalFive` on every one of those sublists. -/
theorem C4_bestOf7_is_max_of_21 :
    ∀ cards : List Card, cards.length = 7 →
      (∃ i j, i < j ∧ j < 7 ∧ bestOf7 cards = evalFive (fiveOf cards i j)) ∧
      (∀ i j, i < j → j < 7 →
        (evalFive (fiveOf cards i j)).score ≤ (bestOf7 cards).score) := by
  intro cards h7
  obtain ⟨a, b, c, d, e, f, g2, rfl⟩ := exists_seven cards h7
  constructor
  · rcases bestFold_mem [a, b, c, d, e, f, g2] (pairsUpTo 7) none with h | ⟨ij, hmem, hg, heq⟩
    · exfalso
      obtain ⟨b', hf, -⟩ := bestFold_ge [a, b, c, d, e, f, g2] (pairsUpTo 7) none (0, 1)
        (by decide) rfl
      rw [h] at hf
      exact Option.noConfusion hf
    · obtain ⟨hi7, hij, hj7⟩ := (pairsUpTo_mem 7 ij.1 ij.2).mp hmem
      refine ⟨ij.1, ij.2, hij, hj7, ?_⟩
      unfold bestOf7
      rw [show ([a, b, c, d, e, f, g2] : List Card).length = 7 from rfl, heq]
  · intro i j hij hj7
    have hg : (fiveOf ([a, b, c, d, e, f, g2] : List Card) i j).length = 5 := by
      interval_cases j <;> interval_cases i <;> rfl
    have hmem : (i, j) ∈ pairsUpTo 7 :=
      (pairsUpTo_mem 7 i j).mpr ⟨lt_trans hij hj7, hij, hj7⟩
    obtain ⟨b', hf, hle⟩ :=
      bestFold_ge [a, b, c, d, e, f, g2] (pairsUpTo 7) none (i, j) hmem hg
    have hbo : bestOf7 [a, b, c, d, e, f, g2] = b' := by
      unfold bestOf7
      rw [show ([a, b, c, d, e, f, g2] : List Card).length = 7 from rfl, hf]
    rw [hbo]
    exact hle

/-- Witness for C4 on seven concrete cards. -/
theorem C4_bestOf7_is_max_of_21_witness :
    w7cards.length = 7 ∧
    (evalFive (fiveOf w7cards 5 6)).score ≤ (bestOf7 w7cards).score ∧
    (evalFive (fiveOf w7cards 0 1)).score ≤ (bestOf7 w7cards).score :=
  ⟨by decide,
   (C4_bestOf7_is_max_of_21 w7cards (by decide)).2 5 6 (by decide) (by decide),
   (C4_bestOf7_is_max_of_21 w7cards (by decide)).2 0 1 (by decide) (by decide)⟩

-- ─── C5: DECK LEMMAS ───────────────────────────────────────────────────────

lemma getD_eq_getElem_card (a : List Card) (j : Nat) (h : j < a.length) :
    a.getD j dCard = a[j] := by
  rw [List.getD_eq_getElem?_getD, List.getElem?_eq_getElem h]
  rfl

lemma swapL_length (a : List Card) (i j : Nat) : (swapL a i j).length = a.length := by
  unfold swapL
  rw [List.length_set, List.length_set]

lemma swapL_perm (a : List Card) (i j : Nat) (hi : i < a.length) (hj : j < a.length) :
    (swapL a i j).Perm a := by
  rw [List.perm_iff_count]
  intro c
  unfold swapL
  have hj' : j < (a.set i (a.getD j dCard)).length := by rwa [List.length_set]
  rw [List.count_set _ _ _ _ hj', List.count_set _ _ _ _ hi]
  have hgj : getElem (a.set i (a.getD j dCard)) j hj' = a[j] := by
    rw [List.getElem_set]
    split
    · exact getD_eq_getElem_card a j hj
    · rfl
  rw [hgj, getD_eq_getElem_card a j hj, getD_eq_getElem_card a i hi]
  have hci : (a[i] == c) = true → 0 < a.count c := by
    intro h
    rw [beq_iff_eq] at h
    exact List.count_pos_iff.mpr (h ▸ List.getElem_mem hi)
  have hcj : (a[j] == c) = true → 0 < a.count c := by
    intro h
    rw [beq_iff_eq] at h
    exact List.count_pos_iff.mpr (h ▸ List.getElem_mem hj)
  by_cases hbi : (a[i] == c) = true <;> by_cases hbj : (a[j] == c) = true
  · have h1 := hci hbi
    simp only [if_pos hbi, if_pos hbj]
    omega
  · have h1 := hci hbi
    simp only [if_pos hbi, if_neg hbj]
    omega
  · simp only [if_neg hbi, if_pos hbj]
    omega
  · simp only [if_neg hbi, if_neg hbj]
    omega

lemma shuffleGo_perm : ∀ (i : Nat) (rand : List Nat) (a : List Card), i < a.length →
    (shuffleGo a i rand).Perm a := by
  intro i
  induction i with
  | zero =>
    intro rand a h
    exact List.Perm.refl a
  | succ n ih =>
    intro rand a h
    cases rand with
    | nil => exact List.Perm.refl a
    | cons r rs =>
      have hj : r % (n + 2) < a.length := lt_of_lt_of_le (Nat.mod_lt _ (by omega)) (by omega)
      have hsw := swapL_perm a (n + 1) (r % (n + 2)) h hj
      have hlen : (swapL a (n + 1) (r % (n + 2))).length = a.length := swapL_length a _ _
      exact (ih rs (swapL a (n + 1) (r % (n + 2))) (by omega)).trans hsw

lemma shuffle_perm (arr : List Card) (rand : List Nat) : (shuffle arr rand).Perm arr := by
  unfold shuffle
  by_cases h : arr.length = 0
  · rw [h]
    exact List.Perm.refl _
  · exact shuffleGo_perm (arr.length - 1) rand arr (by omega)

lemma newDeck_perm (rand : List Nat) : (newDeck rand).Perm fullDeck := shuffle_perm _ _

lemma newDeck_length (rand : List Nat) : (newDeck rand).length = 52 := by
  rw [(newDeck_perm rand).length_eq]
  decide

lemma newDeck_nodup (rand : List Nat) : (newDeck rand).Nodup :=
  ((newDeck_perm rand).nodup_iff).mpr (by decide)

lemma popC_fst_mem (d : List Card) (hne : d ≠ []) : (popC d).1 ∈ d := by
  unfold popC
  simp only [List.getLastD_eq_getLast?, List.getLast?_eq_getLast d hne, Option.getD_some]
  exact List.getLast_mem hne

lemma popC_snd (d : List Card) : (popC d).2 = d.take (d.length - 1) := by
  unfold popC
  simp only [List.dropLast_eq_take]

lemma popC_snd_length (d : List Card) : (popC d).2.length = d.length - 1 := by
  unfold popC
  rw [List.length_dropLast]

lemma popC_snd_nodup (d : List Card) (hd : d.Nodup) : (popC d).2.Nodup :=
  (List.dropLast_sublist d).nodup hd

lemma popC_fst_not_mem_snd (d : List Card) (hne : d ≠ []) (hd : d.Nodup) :
    (popC d).1 ∉ (popC d).2 := by
  unfold popC
  simp only [List.getLastD_eq_getLast?, List.getLast?_eq_getLast d hne, Option.getD_some]
  intro hmem
  have hsplit := List.dropLast_append_getLast hne
  rw [← hsplit, List.nodup_append] at hd
  exact hd.2.2 hmem (List.mem_singleton_self _)

lemma popC_snd_sublist (d : List Card) : (popC d).2.Sublist d := List.dropLast_sublist d

-- ─── C5: DEALING LEMMAS ────────────────────────────────────────────────────

lemma dealHands_spec :
    ∀ (ps : List Player) (d : List Card), d.Nodup →
      2 * (ps.countP fun p => !p.folded) ≤ d.length →
      (dealHands ps d).1.length = ps.length ∧
      (dealHands ps d).2 = d.take (d.length - 2 * (ps.countP fun p => !p.folded)) ∧
      (∀ (i : Nat) (p : Player), ps.get? i = some p →
        ∃ p', (dealHands ps d).1.get? i = some p' ∧
          (p.folded = true → p' = p) ∧
          (p.folded = false → ∃ c1 c2, p' = { p with hand := [c1, c2] } ∧ c1 ≠ c2 ∧
            c1 ∈ d ∧ c2 ∈ d ∧ c1 ∉ (dealHands ps d).2 ∧ c2 ∉ (dealHands ps d).2)) := by
  intro ps
  induction ps with
  | nil =>
    intro d hnd hb
    refine ⟨rfl, ?_, ?_⟩
    · simp [dealHands]
    · intro i p hp
      simp at hp
  | cons p tl ih =>
    intro d hnd hb
    by_cases hf : p.folded
    · have hct : ((p :: tl).countP fun q => !q.folded) = tl.countP fun q => !q.folded := by
        simp [List.countP_cons, hf]
      rw [hct] at hb ⊢
      have heq : dealHands (p :: tl) d = ((p :: (dealHands tl d).1), (dealHands tl d).2) := by
        simp only [dealHands, hf, if_true]
      obtain ⟨ih1, ih2, ih3⟩ := ih d hnd hb
      rw [heq]
      refine ⟨by simp [ih1], ih2, ?_⟩
      intro i q hq
      cases i with
      | zero =>
        simp only [List.get?_cons_zero, Option.some.injEq] at hq
        subst hq
        refine ⟨p, rfl, fun _ => rfl, fun hc => ?_⟩
        rw [hf] at hc
        exact Bool.noConfusion hc
      | succ n =>
        simp only [List.get?_cons_succ] at hq
        obtain ⟨p', hget, hfold, hnf⟩ := ih3 n q hq
        exact ⟨p', hget, hfold, hnf⟩
    · have hf' : p.folded = false := by simpa using hf
      have hct : ((p :: tl).countP fun q => !q.folded) = (tl.countP fun q => !q.folded) + 1 := by
        simp [List.countP_cons, hf']
      rw [hct] at hb
      have hdne : d ≠ [] := by
        intro hcon
        rw [hcon] at hb
        simp at hb
      have hd1len : (popC d).2.length = d.length - 1 := popC_snd_length d
      have hd1ne : (popC d).2 ≠ [] := by
        intro hcon
        have := congrArg List.length hcon
        rw [hd1len] at this
        simp at this
        omega
      have hd1nd : (popC d).2.Nodup := popC_snd_nodup d hnd
      have hd2len : (popC (popC d).2).2.length = d.length - 2 := by
        rw [popC_snd_length, hd1len]
        omega
      have hd2nd : (popC (popC d).2).2.Nodup := popC_snd_nodup _ hd1nd
      have hb2 : 2 * (tl.countP fun q => !q.folded) ≤ (popC (popC d).2).2.length := by
        rw [hd2len]
        omega
      obtain ⟨ih1, ih2, ih3⟩ := ih (popC (popC d).2).2 hd2nd hb2
      have heq : dealHands (p :: tl) d =
          ({ p with hand := [(popC d).1, (popC (popC d).2).1] } ::
            (dealHands tl (popC (popC d).2).2).1,
           (dealHands tl (popC (popC d).2).2).2) := by
        simp only [dealHands, hf', Bool.false_eq_true, if_false]
      have hc1mem : (popC d).1 ∈ d := popC_fst_mem d hdne
      have hc2memd1 : (popC (popC d).2).1 ∈ (popC d).2 := popC_fst_mem _ hd1ne
      have hc2mem : (popC (popC d).2).1 ∈ d := (popC_snd_sublist d).mem hc2memd1
      have hc1nd1 : (popC d).1 ∉ (popC d).2 := popC_fst_not_mem_snd d hdne hnd
      have hc2nd2 : (popC (popC d).2).1 ∉ (popC (popC d).2).2 :=
        popC_fst_not_mem_snd _ hd1ne hd1nd
      have hcne : (popC d).1 ≠ (popC (popC d).2).1 := by
        intro hcon
        rw [hcon] at hc1nd1
        exact hc1nd1 hc2memd1
      have hd2eq : (popC (popC d).2).2 = d.take (d.length - 2) := by
        rw [popC_snd, popC_snd, List.length_take, List.take_take]
        congr 1
        omega
      have hfinsub2 : (dealHands tl (popC (popC d).2).2).2.Sublist (popC (popC d).2).2 := by
        rw [ih2]
        exact List.take_sublist _ _
      have hfinsub1 : (dealHands tl (popC (popC d).2).2).2.Sublist (popC d).2 :=
        hfinsub2.trans (popC_snd_sublist _)
      refine ⟨?_, ?_, ?_⟩
      · rw [heq]
        simp [ih1]
      · rw [heq]
        simp only
        rw [ih2, hd2eq, List.take_take]
        congr 1
        rw [List.length_take]
        omega
      · intro i q hq
        cases i with
        | zero =>
          simp only [List.get?_cons_zero, Option.some.injEq] at hq
          subst hq
          rw [heq]
          refine ⟨_, rfl, fun hc => by rw [hf'] at hc; exact Bool.noConfusion hc, fun _ => ?_⟩
          refine ⟨(popC d).1, (popC (popC d).2).1, rfl, hcne, hc1mem, hc2mem, ?_, ?_⟩
          · simp only
            intro hmem
            exact hc1nd1 (hfinsub1.mem hmem)
          · simp only
            intro hmem
            exact hc2nd2 (hfinsub2.mem hmem)
        | succ n =>
          simp only [List.get?_cons_succ] at hq
          obtain ⟨p', hget, hfold, hnf⟩ := ih3 n q hq
          rw [heq]
          refine ⟨p', by simpa using hget, hfold, ?_⟩
          intro hqf
          obtain ⟨c1, c2, hpe, hc12, hm1, hm2, hn1, hn2⟩ := hnf hqf
          exact ⟨c1, c2, hpe, hc12,
            (((popC_snd_sublist (popC d).2).trans (popC_snd_sublist d))).mem hm1,
            (((popC_snd_sublist (popC d).2).trans (popC_snd_sublist d))).mem hm2, hn1, hn2⟩

-- ─── C5: TURN-ORDER LEMMAS ─────────────────────────────────────────────────

lemma nextActiveIndexGo_succ (ps : List Player) (i f : Nat) (p : Player)
    (hp : ps.get? i = some p) :
    nextActiveIndexGo ps i (f + 1) =
      if p.folded || p.allIn then nextActiveIndexGo ps ((i + 1) % ps.length) f else i := by
  simp only [nextActiveIndexGo]
  rw [hp]

lemma nextActiveIndexGo_first (ps : List Player) :
    ∀ (k i fuel : Nat), i < ps.length → k ≤ fuel →
      (∀ p, ps.get? ((i + k) % ps.length) = some p → (p.folded || p.allIn) = false) →
      (∀ t, t < k → ∀ p, ps.get? ((i + t) % ps.length) = some p →
        (p.folded || p.allIn) = true) →
      nextActiveIndexGo ps i fuel = (i + k) % ps.length := by
  intro k
  induction k with
  | zero =>
    intro i fuel hi hk hgood hprev
    have hmod : (i + 0) % ps.length = i := by
      rw [Nat.add_zero, Nat.mod_eq_of_lt hi]
    rw [hmod]
    obtain ⟨p, hp⟩ : ∃ p, ps.get? i = some p := ⟨_, List.get?_eq_get hi⟩
    cases fuel with
    | zero => rfl
    | succ f =>
      rw [nextActiveIndexGo_succ ps i f p hp]
      rw [hgood p (by rwa [hmod]), if_neg (by simp)]
  | succ k ih =>
    intro i fuel hi hk hgood hprev
    cases fuel with
    | zero => omega
    | succ f =>
      obtain ⟨p, hp⟩ : ∃ p, ps.get? i = some p := ⟨_, List.get?_eq_get hi⟩
      rw [nextActiveIndexGo_succ ps i f p hp]
      have hmod : (i + 0) % ps.length = i := by
        rw [Nat.add_zero, Nat.mod_eq_of_lt hi]
      have hblocked : (p.folded || p.allIn) = true :=
        hprev 0 (by omega) p (by rwa [hmod])
      rw [if_pos hblocked]
      have hi' : (i + 1) % ps.length < ps.length := Nat.mod_lt _ (by omega)
      have hidx : ∀ t : Nat, ((i + 1) % ps.length + t) % ps.length = (i + (t + 1)) % ps.length := by
        intro t
        rw [Nat.mod_add_mod]
        congr 1
        omega
      rw [show (i + (k + 1)) % ps.length = ((i + 1) % ps.length + k) % ps.length from
        (hidx k).symm]
      refine ih ((i + 1) % ps.length) f hi' (by omega) ?_ ?_
      · intro p' hp'
        apply hgood p'
        rwa [hidx k] at hp'
      · intro t ht p' hp'
        apply hprev (t + 1) (by omega) p'
        rwa [hidx t] at hp'

lemma nextActiveIndex_firstFromB (ps : List Player) (i0 : Int) (hn : 0 < ps.length)
    (hex : ∃ j p, ps.get? j = some p ∧ (!(p.folded || p.allIn)) = true) :
    nextActiveIndex ps i0 < ps.length ∧
      firstFromB (fun p => !(p.folded || p.allIn)) ps i0 (nextActiveIndex ps i0) := by
  classical
  have hn0 : ps.length ≠ 0 := Nat.pos_iff_ne_zero.mp hn
  have hstart_lt : ((i0 + 1).emod ps.length).toNat < ps.length := by
    have h1 : 0 ≤ (i0 + 1).emod ps.length := Int.emod_nonneg _ (by exact_mod_cast hn0)
    have h2 : (i0 + 1).emod ps.length < ps.length := Int.emod_lt_of_pos _ (by exact_mod_cast hn)
    omega
  have hunf : nextActiveIndex ps i0 =
      nextActiveIndexGo ps (((i0 + 1).emod ps.length).toNat) ps.length := by
    unfold nextActiveIndex
    rw [if_neg hn0]
  obtain ⟨j, p, hj, hpgood⟩ := hex
  have hjlt : j < ps.length := by
    obtain ⟨hlt, -⟩ := List.get?_eq_some.mp hj
    exact hlt
  have hPex : ∃ k, ∀ q, ps.get? ((((i0 + 1).emod ps.length).toNat + k) % ps.length) = some q →
      (!(q.folded || q.allIn)) = true := by
    obtain ⟨k, hk, hkeq⟩ := mod_surj_on ps.length (((i0 + 1).emod ps.length).toNat) j hn hjlt
    refine ⟨k, ?_⟩
    intro q hq
    rw [hkeq, hj] at hq
    obtain rfl : p = q := by injection hq
    exact hpgood
  obtain ⟨k0, hk0spec, hk0min⟩ :
      ∃ k0, (∀ q, ps.get? ((((i0 + 1).emod ps.length).toNat + k0) % ps.length) = some q →
        (!(q.folded || q.allIn)) = true) ∧
      ∀ t, t < k0 → ¬ (∀ q, ps.get? ((((i0 + 1).emod ps.length).toNat + t) % ps.length) = some q →
        (!(q.folded || q.allIn)) = true) :=
    ⟨Nat.find hPex, Nat.find_spec hPex, fun t ht => Nat.find_min hPex ht⟩
  have hk0lt : k0 < ps.length := by
    obtain ⟨k, hk, hkeq⟩ := mod_surj_on ps.length (((i0 + 1).emod ps.length).toNat) j hn hjlt
    have hle : k0 ≤ k := by
      by_contra hgt
      refine hk0min k (by omega) ?_
      intro q hq
      rw [hkeq, hj] at hq
      obtain rfl : p = q := by injection hq
      exact hpgood
    omega
  have hprev : ∀ t, t < k0 → ∀ q,
      ps.get? ((((i0 + 1).emod ps.length).toNat + t) % ps.length) = some q →
      (q.folded || q.allIn) = true := by
    intro t ht q hq
    have hnall := hk0min t ht
    by_contra hcon
    refine hnall ?_
    intro q' hq'
    rw [hq] at hq'
    obtain rfl : q = q' := by injection hq'
    simp only [Bool.not_eq_true] at hcon ⊢
    simp [hcon]
  have hgoodk : ∀ q, ps.get? ((((i0 + 1).emod ps.length).toNat + k0) % ps.length) = some q →
      (q.folded || q.allIn) = false := by
    intro q hq
    have := hk0spec q hq
    simpa using this
  have hres : nextActiveIndexGo ps (((i0 + 1).emod ps.length).toNat) ps.length =
      ((((i0 + 1).emod ps.length).toNat + k0) % ps.length) :=
    nextActiveIndexGo_first ps k0 (((i0 + 1).emod ps.length).toNat) ps.length hstart_lt
      (by omega) hgoodk hprev
  have hreslt : ((((i0 + 1).emod ps.length).toNat + k0) % ps.length) < ps.length :=
    Nat.mod_lt _ hn
  refine ⟨by rw [hunf, hres]; exact hreslt, k0, hk0lt, by rw [hunf, hres], ?_, ?_⟩
  · obtain ⟨q, hq⟩ : ∃ q, ps.get? ((((i0 + 1).emod ps.length).toNat + k0) % ps.length) = some q :=
      ⟨_, List.get?_eq_get hreslt⟩
    rw [hunf, hres]
    exact ⟨q, hq, by simpa using hk0spec q hq⟩
  · intro t ht q hq
    show (!(q.folded || q.allIn)) = false
    rw [hprev t ht q hq]
    rfl

-- ─── C5: WALK TRANSFER AND DISTINCTNESS ────────────────────────────────────

lemma natCast_emod_toNat (a n : Nat) : (((a : Int)).emod (n : Int)).toNat = a % n := by
  rw [show ((a : Int)).emod (n : Int) = ((a % n : Nat) : Int) from by
    rw [Int.natCast_mod]
    rfl]
  exact Int.toNat_natCast _

lemma firstFromB_transfer (good1 good2 : Player → Bool) (ps qs : List Player) (i0 : Int)
    (idx : Nat) (hlen : qs.length = ps.length)
    (hcorr : ∀ (j : Nat) (q : Player), qs.get? j = some q →
      ∃ p, ps.get? j = some p ∧ good1 p = good2 q) :
    firstFromB good1 ps i0 idx → firstFromB good2 qs i0 idx := by
  rintro ⟨k, hk, hidx, ⟨p, hp, hpg⟩, hprev⟩
  have hn : 0 < ps.length := by omega
  refine ⟨k, by rw [hlen]; exact hk, by rw [hlen]; exact hidx, ?_, ?_⟩
  · have hidxlt : idx < qs.length := by
      rw [hlen, hidx]
      exact Nat.mod_lt _ hn
    obtain ⟨q, hq⟩ : ∃ q, qs.get? idx = some q := ⟨_, List.get?_eq_get hidxlt⟩
    obtain ⟨p', hp', hg⟩ := hcorr idx q hq
    rw [hp] at hp'
    obtain rfl : p = p' := by injection hp'
    exact ⟨q, hq, by rw [← hg]; exact hpg⟩
  · intro t ht q hq
    rw [hlen] at hq
    obtain ⟨p', hp', hg⟩ := hcorr _ q hq
    rw [← hg]
    exact hprev t ht p' hp'

lemma firstFromB_ne_base (good : Player → Bool) (ps : List Player) (sb idx : Nat)
    (hsb : sb < ps.length)
    (h2 : ∃ i j pi pj, i ≠ j ∧ ps.get? i = some pi ∧ good pi = true ∧
      ps.get? j = some pj ∧ good pj = true)
    (hfc : firstFromB good ps (sb : Int) idx) : idx ≠ sb := by
  obtain ⟨k, hk, hidx, ⟨p, hp, hpg⟩, hprev⟩ := hfc
  intro hcon
  have hn : 0 < ps.length := by omega
  have hstart : (((sb : Int) + 1).emod (ps.length : Int)).toNat = (sb + 1) % ps.length := by
    rw [show ((sb : Int) + 1) = (((sb + 1 : Nat)) : Int) from by push_cast; ring]
    exact natCast_emod_toNat (sb + 1) ps.length
  rw [hstart] at hidx hprev
  have hmod : (sb + 1 + k) % ps.length = sb := by
    rw [← Nat.mod_add_mod]
    rw [← hidx]
    exact hcon.symm ▸ rfl
  have hk1 : k = ps.length - 1 := by
    obtain ⟨m, hm⟩ : ∃ m, m = ps.length * ((sb + 1 + k) / ps.length) := ⟨_, rfl⟩
    have hdm : m + sb = sb + 1 + k := by
      conv_rhs => rw [← Nat.div_add_mod (sb + 1 + k) ps.length]
      rw [hmod, ← hm]
    obtain ⟨q, hq⟩ : ∃ q, m = ps.length * q := ⟨_, hm⟩
    rcases Nat.eq_zero_or_pos q with hq0 | hq0
    · rw [hq0, Nat.mul_zero] at hq
      omega
    · have hge : ps.length * 1 ≤ ps.length * q := Nat.mul_le_mul_left _ hq0
      rw [Nat.mul_one] at hge
      rw [← hq] at hge
      omega
  obtain ⟨i, j, pi, pj, hij, hpi, hgi, hpj, hgj⟩ := h2
  have hexj : ∃ j' pj', j' ≠ sb ∧ ps.get? j' = some pj' ∧ good pj' = true := by
    by_cases hi : i = sb
    · exact ⟨j, pj, by omega, hpj, hgj⟩
    · exact ⟨i, pi, hi, hpi, hgi⟩
  obtain ⟨j', pj', hjne, hpj', hgj'⟩ := hexj
  have hjlt : j' < ps.length := by
    obtain ⟨hlt, -⟩ := List.get?_eq_some.mp hpj'
    exact hlt
  obtain ⟨t, htn, hteq⟩ := mod_surj_on ps.length ((sb + 1) % ps.length) j' hn hjlt
  have htk : t ≤ k := by omega
  rcases lt_or_eq_of_le htk with hlt | heq
  · have hbad := hprev t hlt pj' (by rw [hteq]; exact hpj')
    rw [hgj'] at hbad
    exact Bool.noConfusion hbad
  · subst heq
    rw [← hidx, hcon] at hteq
    exact hjne hteq.symm

-- ─── C5: HAND SETUP HELPERS ────────────────────────────────────────────────

lemma get?_set_self {α : Type} (l : List α) (i : Nat) (a : α) (h : i < l.length) :
    (l.set i a).get? i = some a := by
  rw [List.get?_eq_getElem?]
  rw [List.getElem?_set]
  simp [h]

lemma get?_set_ne {α : Type} (l : List α) (i j : Nat) (a : α) (h : i ≠ j) :
    (l.set i a).get? j = l.get? j := by
  rw [List.get?_eq_getElem?, List.get?_eq_getElem?, List.getElem?_set_ne h]

lemma activePlayers_eq (g : GameState) : activePlayers g = g.players.filter eligB := rfl

lemma resetForHand_folded (p : Player) : (resetForHand p).folded = !eligB p := by
  rcases le_or_lt p.chips 0 with h | h
  · have h1 : decide (p.chips ≤ 0) = true := by simpa using h
    have h2 : decide (0 < p.chips) = false := by simp; omega
    cases hc : p.connected <;> cases hs : p.sitOut <;>
      simp [resetForHand, eligB, hc, hs, h1, h2]
  · have h1 : decide (p.chips ≤ 0) = false := by simp; omega
    have h2 : decide (0 < p.chips) = true := by simpa using h
    cases hc : p.connected <;> cases hs : p.sitOut <;>
      simp [resetForHand, eligB, hc, hs, h1, h2]

lemma filter_one_seat {α : Type} (good : α → Bool) :
    ∀ (ps : List α), 1 ≤ (ps.filter good).length →
      ∃ i p, ps.get? i = some p ∧ good p = true := by
  intro ps
  induction ps with
  | nil => intro h; exact absurd h (by simp)
  | cons a t ih =>
    intro h
    cases hg : good a with
    | true => exact ⟨0, a, rfl, hg⟩
    | false =>
      rw [List.filter_cons] at h
      rw [if_neg (by simp [hg])] at h
      obtain ⟨i, p, hp, hgp⟩ := ih h
      exact ⟨i + 1, p, hp, hgp⟩

lemma filter_two_seats {α : Type} (good : α → Bool) :
    ∀ (ps : List α), 2 ≤ (ps.filter good).length →
      ∃ i j pi pj, i ≠ j ∧ ps.get? i = some pi ∧ good pi = true ∧
        ps.get? j = some pj ∧ good pj = true := by
  intro ps
  induction ps with
  | nil => intro h; exact absurd h (by simp)
  | cons a t ih =>
    intro h
    rw [List.filter_cons] at h
    cases hg : good a with
    | true =>
      rw [if_pos hg, List.length_cons] at h
      obtain ⟨j, pj, hpj, hgj⟩ := filter_one_seat good t (by omega)
      exact ⟨0, j + 1, a, pj, by omega, rfl, hg, hpj, hgj⟩
    | false =>
      rw [if_neg (by simp [hg])] at h
      obtain ⟨i, j, pi, pj, hij, hpi, hgi, hpj, hgj⟩ := ih h
      exact ⟨i + 1, j + 1, pi, pj, by omega, hpi, hgi, hpj, hgj⟩

lemma countP_reset (ps : List Player) :
    ((ps.map resetForHand).countP fun p => !p.folded) = ps.countP eligB := by
  rw [List.countP_map]
  apply List.countP_congr
  intro p _
  show ((!(resetForHand p).folded) = true ↔ eligB p = true)
  rw [resetForHand_folded, Bool.not_not]

lemma postBlindF_some (ps : List Player) (idx : Nat) (amount pot : Int) (p : Player)
    (hp : ps.get? idx = some p) :
    postBlindF ps idx amount pot =
      (ps.set idx (if p.chips - min amount p.chips == (0 : Int) then { p with chips := p.chips - min amount p.chips, bet := p.bet + min amount p.chips, allIn := true } else { p with chips := p.chips - min amount p.chips, bet := p.bet + min amount p.chips }),
       pot + min amount p.chips) := by
  unfold postBlindF
  rw [hp]

lemma postBlindF_spec (ps : List Player) (idx : Nat) (amount pot : Int) (p : Player)
    (hp : ps.get? idx = some p) :
    ∃ p2, postBlindF ps idx amount pot = (ps.set idx p2, pot + min amount p.chips) ∧
      p2.id = p.id ∧ p2.hand = p.hand ∧ p2.folded = p.folded ∧
      p2.chips = p.chips - min amount p.chips ∧
      p2.bet = p.bet + min amount p.chips ∧
      p2.allIn = (if p.chips - min amount p.chips = 0 then true else p.allIn) ∧
      p2.connected = p.connected ∧ p2.sitOut = p.sitOut ∧
      p2.name = p.name ∧ p2.seatIndex = p.seatIndex := by
  rw [postBlindF_some ps idx amount pot p hp]
  by_cases h0 : p.chips - min amount p.chips = 0
  · rw [if_pos (by simpa using h0)]
    exact ⟨_, rfl, rfl, rfl, rfl, rfl, rfl, by rw [if_pos h0], rfl, rfl, rfl, rfl⟩
  · rw [if_neg (by simpa using h0)]
    exact ⟨_, rfl, rfl, rfl, rfl, rfl, rfl, by rw [if_neg h0], rfl, rfl, rfl, rfl⟩

-- ─── C5: STARTHAND UNFOLDING ───────────────────────────────────────────────

lemma startHandOk_eq (g : GameState) (osb obb : Option Int) (rand : List Nat)
    (sb bb : Int) (deck0 : List Card) (ps1 ps2 ps3 ps4 : List Player)
    (dIdx sbIdx bbIdx cIdx : Nat) (d2 : List Card) (pot3 pot4 : Int)
    (hsb : sb = applySetting g.SMALL_BLIND osb)
    (hbb : bb = applySetting g.BIG_BLIND obb)
    (hdeck0 : deck0 = newDeck rand)
    (hps1 : ps1 = g.players.map resetForHand)
    (hdIdx : dIdx = nextActiveIndex ps1 g.dealerIndex)
    (hps2 : ps2 = (dealHands ps1 deck0).1)
    (hd2 : d2 = (dealHands ps1 deck0).2)
    (hsbIdx : sbIdx = nextActiveIndex ps2 (dIdx : Int))
    (hbbIdx : bbIdx = nextActiveIndex ps2 (sbIdx : Int))
    (hps3 : ps3 = (postBlindF ps2 sbIdx sb 0).1)
    (hpot3 : pot3 = (postBlindF ps2 sbIdx sb 0).2)
    (hps4 : ps4 = (postBlindF ps3 bbIdx bb pot3).1)
    (hpot4 : pot4 = (postBlindF ps3 bbIdx bb pot3).2)
    (hcIdx : cIdx = nextActiveIndex ps4 (bbIdx : Int)) :
    startHandOk g osb obb rand =
      addLogG (addLogG (addLogG { g with players := ps4, community := [], pot := pot4, deck := d2, phase := .preflop, dealerIndex := (dIdx : Int), currentIndex := (cIdx : Int), callAmount := bb, minRaise := bb, actedThisRound := [], handNumber := g.handNumber + 1, SMALL_BLIND := sb, BIG_BLIND := bb }
        (("--- Hand #") ++ toString (g.handNumber + 1) ++ (" --- Dealer: ") ++ (ps4.getD dIdx dPlayer).name))
        ((ps4.getD sbIdx dPlayer).name ++ (" posts $") ++ toString sb ++ (" (SB)")))
        ((ps4.getD bbIdx dPlayer).name ++ (" posts $") ++ toString bb ++ (" (BB)")) := by
  subst hcIdx hpot4 hps4 hpot3 hps3 hbbIdx hsbIdx hd2 hps2 hdIdx hps1 hdeck0 hbb hsb
  rfl

-- ─── C5: STARTHAND SPECIFICATION ───────────────────────────────────────────

lemma resetActive (p : Player) :
    (!((resetForHand p).folded || (resetForHand p).allIn)) = eligB p := by
  rw [show (resetForHand p).allIn = false from rfl, Bool.or_false, resetForHand_folded,
    Bool.not_not]

lemma get?_some_lt5 {α : Type} {l : List α} {n : Nat} {a : α} (h : l.get? n = some a) :
    n < l.length := by
  rcases List.get?_eq_some.mp h with ⟨hlt, -⟩
  exact hlt

/-- **C5**.  `startHand` fails with `NotEnoughPlayers` exactly on fewer than
two eligible players; on success it increments the hand counter, deals from a
fresh shuffled 52-card deck, resets community/bets, folds the ineligible,
walks dealer → SB → BB → first actor through the eligible seats, posts both
blinds capped at the posters' stacks (all-in on exhaustion), sets
`callAmount` to the big blind and enters preflop. -/
theorem C5_startHand_correct (g : GameState) (osb obb : Option Int) (rand : List Nat)
    (hcap : g.players.length ≤ 9) :
    ((activePlayers g).length < 2 →
      startHand g osb obb rand = (.error .NotEnoughPlayers, g)) ∧
    (2 ≤ (activePlayers g).length →
      ∃ g', startHand g osb obb rand = (.ok (), g') ∧ startHandSpecPost g g' osb obb rand) := by
  constructor
  · intro h
    rw [startHand, if_pos h]
  · intro h2
    have hnl : ¬ (activePlayers g).length < 2 := not_lt.mpr h2
    rw [activePlayers_eq] at h2
    obtain ⟨i, j, pi, pj, hij, hpi, hgi, hpj, hgj⟩ := filter_two_seats eligB g.players h2
    have hplen : 0 < g.players.length := by
      have := get?_some_lt5 hpi
      omega
    obtain ⟨sb, hsb⟩ : ∃ x, x = applySetting g.SMALL_BLIND osb := ⟨_, rfl⟩
    obtain ⟨bb, hbb⟩ : ∃ x, x = applySetting g.BIG_BLIND obb := ⟨_, rfl⟩
    obtain ⟨deck0, hdeck0⟩ : ∃ x, x = newDeck rand := ⟨_, rfl⟩
    obtain ⟨ps1, hps1⟩ : ∃ x, x = g.players.map resetForHand := ⟨_, rfl⟩
    obtain ⟨dIdx, hdIdx⟩ : ∃ x, x = nextActiveIndex ps1 g.dealerIndex := ⟨_, rfl⟩
    have hlen1 : ps1.length = g.players.length := by rw [hps1, List.length_map]
    have hnodup : deck0.Nodup := by rw [hdeck0]; exact newDeck_nodup rand
    have hcountE : g.players.countP eligB ≤ g.players.length := List.countP_le_length _
    have hcount : 2 * (ps1.countP fun p => !p.folded) ≤ deck0.length := by
      rw [hps1, countP_reset, hdeck0, newDeck_length]
      omega
    have hdealAll := dealHands_spec ps1 deck0 hnodup hcount
    obtain ⟨ps2, hps2⟩ : ∃ x, x = (dealHands ps1 deck0).1 := ⟨_, rfl⟩
    obtain ⟨d2, hd2⟩ : ∃ x, x = (dealHands ps1 deck0).2 := ⟨_, rfl⟩
    have hlen2 : ps2.length = g.players.length := by rw [hps2, hdealAll.1, hlen1]
    have hcorr1 : ∀ (jj : Nat) (q : Player), g.players.get? jj = some q →
        ∃ p, ps1.get? jj = some p ∧ (!(p.folded || p.allIn)) = eligB q := by
      intro jj q hq
      refine ⟨resetForHand q, ?_, resetActive q⟩
      rw [hps1, List.get?_map, hq]
      rfl
    have hex1 : ∃ jj p, ps1.get? jj = some p ∧ (!(p.folded || p.allIn)) = true := by
      obtain ⟨p, hp, hflag⟩ := hcorr1 i pi hpi
      exact ⟨i, p, hp, by rw [hflag, hgi]⟩
    obtain ⟨hdlt1, hdfc1⟩ := nextActiveIndex_firstFromB ps1 g.dealerIndex
      (by rw [hlen1]; exact hplen) hex1
    rw [← hdIdx] at hdlt1 hdfc1
    have hdfc : firstFromB eligB g.players g.dealerIndex dIdx :=
      firstFromB_transfer _ _ ps1 g.players _ _ hlen1.symm hcorr1 hdfc1
    have hcorr2 : ∀ (jj : Nat) (q : Player), g.players.get? jj = some q →
        ∃ p', ps2.get? jj = some p' ∧
          p'.folded = !eligB q ∧ p'.allIn = false ∧ p'.chips = q.chips ∧ p'.bet = 0 ∧
          p'.id = q.id ∧
          (eligB q = false → p'.hand = []) ∧
          (eligB q = true → ∃ c1 c2, p'.hand = [c1, c2] ∧ c1 ≠ c2 ∧ c1 ∈ deck0 ∧
            c2 ∈ deck0 ∧ c1 ∉ d2 ∧ c2 ∉ d2) := by
      intro jj q hq
      have hj1 : ps1.get? jj = some (resetForHand q) := by
        rw [hps1, List.get?_map, hq]
        rfl
      obtain ⟨p', hp', hfoldcase, hdealcase⟩ := hdealAll.2.2 jj (resetForHand q) hj1
      rw [← hps2] at hp'
      cases he : eligB q with
      | false =>
        have hf : (resetForHand q).folded = true := by rw [resetForHand_folded, he]; rfl
        have hpp := hfoldcase hf
        subst hpp
        refine ⟨resetForHand q, hp', ?_, rfl, rfl, rfl, rfl, ?_, ?_⟩
        · rw [resetForHand_folded, he]
        · intro _
          rfl
        · intro ht
          exact Bool.noConfusion ht
      | true =>
        have hf : (resetForHand q).folded = false := by rw [resetForHand_folded, he]; rfl
        obtain ⟨c1, c2, hpp, hcne, hc1, hc2, hnc1, hnc2⟩ := hdealcase hf
        subst hpp
        rw [← hd2] at hnc1 hnc2
        refine ⟨_, hp', ?_, rfl, rfl, rfl, rfl, ?_, ?_⟩
        · show (resetForHand q).folded = !true
          rw [resetForHand_folded, he]
        · intro ht
          exact Bool.noConfusion ht
        · intro _
          exact ⟨c1, c2, rfl, hcne, hc1, hc2, hnc1, hnc2⟩
    have hcorr2' : ∀ (jj : Nat) (q : Player), g.players.get? jj = some q →
        ∃ p, ps2.get? jj = some p ∧ (!(p.folded || p.allIn)) = eligB q := by
      intro jj q hq
      obtain ⟨p', hp', hf, ha, -, -, -, -, -⟩ := hcorr2 jj q hq
      exact ⟨p', hp', by rw [hf, ha, Bool.or_false, Bool.not_not]⟩
    have hex2 : ∃ jj p, ps2.get? jj = some p ∧ (!(p.folded || p.allIn)) = true := by
      obtain ⟨p, hp, hflag⟩ := hcorr2' i pi hpi
      exact ⟨i, p, hp, by rw [hflag, hgi]⟩
    obtain ⟨sbIdx, hsbIdx⟩ : ∃ x, x = nextActiveIndex ps2 (dIdx : Int) := ⟨_, rfl⟩
    obtain ⟨hsblt2, hsbfc2⟩ := nextActiveIndex_firstFromB ps2 (dIdx : Int)
      (by rw [hlen2]; exact hplen) hex2
    rw [← hsbIdx] at hsblt2 hsbfc2
    have hsbfc : firstFromB eligB g.players (dIdx : Int) sbIdx :=
      firstFromB_transfer _ _ ps2 g.players _ _ hlen2.symm hcorr2' hsbfc2
    obtain ⟨bbIdx, hbbIdx⟩ : ∃ x, x = nextActiveIndex ps2 (sbIdx : Int) := ⟨_, rfl⟩
    obtain ⟨hbblt2, hbbfc2⟩ := nextActiveIndex_firstFromB ps2 (sbIdx : Int)
      (by rw [hlen2]; exact hplen) hex2
    rw [← hbbIdx] at hbblt2 hbbfc2
    have hbbfc : firstFromB eligB g.players (sbIdx : Int) bbIdx :=
      firstFromB_transfer _ _ ps2 g.players _ _ hlen2.symm hcorr2' hbbfc2
    have hsblt : sbIdx < g.players.length := by rw [← hlen2]; exact hsblt2
    have htwo : ∃ ii jj pii pjj, ii ≠ jj ∧ g.players.get? ii = some pii ∧ eligB pii = true ∧
        g.players.get? jj = some pjj ∧ eligB pjj = true :=
      ⟨i, j, pi, pj, hij, hpi, hgi, hpj, hgj⟩
    have hsbne : sbIdx ≠ bbIdx :=
      Ne.symm (firstFromB_ne_base eligB g.players sbIdx bbIdx hsblt htwo hbbfc)
    have hsbocc := hsbfc
    obtain ⟨-, -, -, ⟨sbP, hsbP, hsbPe⟩, -⟩ := hsbocc
    have hbbocc := hbbfc
    obtain ⟨-, -, -, ⟨bbP, hbbP, hbbPe⟩, -⟩ := hbbocc
    obtain ⟨sbQ, hsbQ, hsbQf, hsbQa, hsbQc, hsbQb, hsbQid, hsbQhF, hsbQhT⟩ :=
      hcorr2 sbIdx sbP hsbP
    obtain ⟨bbQ, hbbQ, hbbQf, hbbQa, hbbQc, hbbQb, hbbQid, hbbQhF, hbbQhT⟩ :=
      hcorr2 bbIdx bbP hbbP
    obtain ⟨sb2, hpostSB, hsb2id, hsb2hand, hsb2folded, hsb2chips, hsb2bet, hsb2allIn,
      hsb2conn, hsb2sit, hsb2name, hsb2seat⟩ := postBlindF_spec ps2 sbIdx sb 0 sbQ hsbQ
    obtain ⟨ps3, hps3v⟩ : ∃ x, x = ps2.set sbIdx sb2 := ⟨_, rfl⟩
    obtain ⟨pot3, hpot3v⟩ : ∃ x, x = (0 : Int) + min sb sbQ.chips := ⟨_, rfl⟩
    have hps3' : ps3 = (postBlindF ps2 sbIdx sb 0).1 := by
      rw [hps3v, hpostSB]
    have hpot3' : pot3 = (postBlindF ps2 sbIdx sb 0).2 := by
      rw [hpot3v, hpostSB]
    have hbbQ3 : ps3.get? bbIdx = some bbQ := by
      rw [hps3v, get?_set_ne ps2 sbIdx bbIdx sb2 hsbne]
      exact hbbQ
    obtain ⟨bb2, hpostBB, hbb2id, hbb2hand, hbb2folded, hbb2chips, hbb2bet, hbb2allIn,
      hbb2conn, hbb2sit, hbb2name, hbb2seat⟩ := postBlindF_spec ps3 bbIdx bb pot3 bbQ hbbQ3
    obtain ⟨ps4, hps4v⟩ : ∃ x, x = ps3.set bbIdx bb2 := ⟨_, rfl⟩
    obtain ⟨pot4, hpot4v⟩ : ∃ x, x = pot3 + min bb bbQ.chips := ⟨_, rfl⟩
    have hps4' : ps4 = (postBlindF ps3 bbIdx bb pot3).1 := by
      rw [hps4v, hpostBB]
    have hpot4' : pot4 = (postBlindF ps3 bbIdx bb pot3).2 := by
      rw [hpot4v, hpostBB]
    obtain ⟨cIdx, hcIdx⟩ : ∃ x, x = nextActiveIndex ps4 (bbIdx : Int) := ⟨_, rfl⟩
    have hG := startHandOk_eq g osb obb rand sb bb deck0 ps1 ps2 ps3 ps4 dIdx sbIdx bbIdx
      cIdx d2 pot3 pot4 hsb hbb hdeck0 hps1 hdIdx hps2 hd2 hsbIdx hbbIdx hps3' hpot3'
      hps4' hpot4' hcIdx
    obtain ⟨g', hg'⟩ : ∃ x, x = startHandOk g osb obb rand := ⟨_, rfl⟩
    have hlen4 : ps4.length = g.players.length := by
      rw [hps4v, List.length_set, hps3v, List.length_set, hlen2]
    refine ⟨g', by rw [startHand, if_neg hnl, ← hg'], ?_⟩
    have hFplayers : g'.players = ps4 := by
      rw [hg', hG]
      rfl
    have hFpot : g'.pot = pot4 := by
      rw [hg', hG]
      rfl
    have hFdeck : g'.deck = d2 := by
      rw [hg', hG]
      rfl
    have hFhand : g'.handNumber = g.handNumber + 1 := by
      rw [hg', hG]
      rfl
    have hFphase : g'.phase = .preflop := by
      rw [hg', hG]
      rfl
    have hFcomm : g'.community = [] := by
      rw [hg', hG]
      rfl
    have hFcall : g'.callAmount = bb := by
      rw [hg', hG]
      rfl
    have hFacted : g'.actedThisRound = [] := by
      rw [hg', hG]
      rfl
    have hFdealer : g'.dealerIndex = (dIdx : Int) := by
      rw [hg', hG]
      rfl
    have hFcur : g'.currentIndex = (cIdx : Int) := by
      rw [hg', hG]
      rfl
    simp only [startHandSpecPost]
    rw [hFhand, hFphase, hFcomm, hFcall, hFacted, hFplayers, hFdeck, hFpot, hFdealer,
      hFcur, ← hsb, ← hbb, ← hdeck0]
    refine ⟨rfl, rfl, rfl, rfl, rfl, hlen4, ?_, ?_, ?_⟩
    · rw [hdeck0]
      exact newDeck_perm rand
    · rw [hd2, hdealAll.2.1, hps1, countP_reset]
    · refine ⟨dIdx, sbIdx, bbIdx, sbP, bbP, rfl, hdfc, hsbfc, hbbfc, hsbne, hsbP, hbbP,
        ?_, ?_, ?_⟩
      · rw [hpot4v, hpot3v, hsbQc, hbbQc, zero_add]
      · intro hex4
        obtain ⟨-, hcfc⟩ := nextActiveIndex_firstFromB ps4 (bbIdx : Int)
          (by rw [hlen4]; exact hplen) hex4
        exact ⟨cIdx, rfl, by rw [hcIdx]; exact hcfc⟩
      · intro ii p hpii
        by_cases hisb : ii = sbIdx
        · subst hisb
          have hpeq : p = sbP := by
            rw [hpii] at hsbP
            injection hsbP
          subst hpeq
          have hps4sb : ps4.get? ii = some sb2 := by
            rw [hps4v, get?_set_ne ps3 bbIdx ii bb2 (fun h => hsbne h.symm), hps3v,
              get?_set_self ps2 ii sb2 hsblt2]
          refine ⟨sb2, hps4sb, ?_, ?_, ?_, ?_, ?_, ?_, ?_⟩
          · rw [hsb2id, hsbQid]
          · rw [hsb2folded, hsbQf]
          · intro he
            rw [hsbPe] at he
            exact Bool.noConfusion he
          · intro _
            obtain ⟨c1, c2, hh, hcne, hc1, hc2, hn1, hn2⟩ := hsbQhT hsbPe
            exact ⟨c1, c2, by rw [hsb2hand, hh], hcne, hc1, hc2, hn1, hn2⟩
          · intro hne _
            exact absurd rfl hne
          · intro _
            refine ⟨?_, ?_, ?_⟩
            · rw [hsb2bet, hsbQb, hsbQc, zero_add]
            · rw [hsb2chips, hsbQc]
            · rw [hsb2allIn, hsb2chips, hsbQa, hsbQc]
              by_cases h0 : p.chips - min sb p.chips = 0
              · rw [if_pos h0]
                simp [h0]
              · rw [if_neg h0]
                simp [h0]
          · intro hbe
            exact absurd hbe hsbne
        · by_cases hibb : ii = bbIdx
          · subst hibb
            have hpeq : p = bbP := by
              rw [hpii] at hbbP
              injection hbbP
            subst hpeq
            have hps4bb : ps4.get? ii = some bb2 := by
              rw [hps4v, get?_set_self ps3 ii bb2 (by rw [hps3v, List.length_set]; exact hbblt2)]
            refine ⟨bb2, hps4bb, ?_, ?_, ?_, ?_, ?_, ?_, ?_⟩
            · rw [hbb2id, hbbQid]
            · rw [hbb2folded, hbbQf]
            · intro he
              rw [hbbPe] at he
              exact Bool.noConfusion he
            · intro _
              obtain ⟨c1, c2, hh, hcne, hc1, hc2, hn1, hn2⟩ := hbbQhT hbbPe
              exact ⟨c1, c2, by rw [hbb2hand, hh], hcne, hc1, hc2, hn1, hn2⟩
            · intro _ hne
              exact absurd rfl hne
            · intro h
              exact absurd h.symm hsbne
            · intro _
              refine ⟨?_, ?_, ?_⟩
              · rw [hbb2bet, hbbQb, hbbQc, zero_add]
              · rw [hbb2chips, hbbQc]
              · rw [hbb2allIn, hbb2chips, hbbQa, hbbQc]
                by_cases h0 : p.chips - min bb p.chips = 0
                · rw [if_pos h0]
                  simp [h0]
                · rw [if_neg h0]
                  simp [h0]
          · obtain ⟨q2, hq2, hq2f, hq2a, hq2c, hq2b, hq2id, hq2hF, hq2hT⟩ :=
              hcorr2 ii p hpii
            have hps4i : ps4.get? ii = some q2 := by
              rw [hps4v, get?_set_ne ps3 bbIdx ii bb2 (fun h => hibb h.symm), hps3v,
                get?_set_ne ps2 sbIdx ii sb2 (fun h => hisb h.symm)]
              exact hq2
            refine ⟨q2, hps4i, hq2id, hq2f, ?_, hq2hT, ?_, ?_, ?_⟩
            · intro he
              exact ⟨hq2hF he, hq2b, hq2c, hq2a⟩
            · intro _ _
              exact ⟨hq2b, hq2c, hq2a⟩
            · intro h
              exact absurd h hisb
            · intro h
              exact absurd h hibb

theorem C5_startHand_correct_witness :
    c5State.players.length ≤ 9 ∧ 2 ≤ (activePlayers c5State).length ∧
    ∃ g', startHand c5State none none [] = (.ok (), g') ∧
      startHandSpecPost c5State g' none none [] :=
  ⟨by decide, by decide,
    (C5_startHand_correct c5State none none [] (by decide)).2 (by decide)⟩
